import Mathlib

/-!
Verification model of the snappy package (a Go client session layer for the
Snapmaker 2.0 A350 fabrication machine).  Every definition below is a shallow
embedding of a function or data type of `snappy.go`, translated at the level
of detail the verified properties need: byte slices become `List Char`,
Go `int` becomes `Int` (arbitrary precision; the claims never exercise
overflow), Go `float64` state fields become `Rat`, HTTP and `encoding/json`
outcomes become explicit parameters, and goroutine interleavings become
transition systems.
-/

deriving instance DecidableEq for Except

namespace Snappy

/-! ## Byte-slice helpers

Models of the `bytes` package operations used by `ModuleDetail.UnmarshalJSON`
(`bytes.HasPrefix`, `bytes.Contains`, `bytes.Index`) over `List Char`.
-/

/-- Model of bytes.HasPrefix: `startsWith p s` is true when `p` is an initial
segment of `s`. -/
def startsWith : List Char → List Char → Bool
  | [], _ => true
  | _ :: _, [] => false
  | p :: ps, c :: cs => if p = c then startsWith ps cs else false

/-- Model of bytes.Contains: true when `pat` occurs contiguously in the second
argument. -/
def containsSub (pat : List Char) : List Char → Bool
  | [] => startsWith pat []
  | c :: cs => startsWith pat (c :: cs) || containsSub pat cs

/-- Model of bytes.Index: position of the first occurrence of `pat`, if any. -/
def indexOfSub (pat : List Char) : List Char → Option Nat
  | [] => if startsWith pat [] then some 0 else none
  | c :: cs =>
    if startsWith pat (c :: cs) then some 0
    else (indexOfSub pat cs).map (fun i => i + 1)

/-- Consume the literal `p` from the front of `s`, returning the remainder. -/
def dropLit (p s : List Char) : Option (List Char) :=
  if startsWith p s then some (s.drop p.length) else none

/-- Split `s` at the first occurrence of character `d`; the delimiter is
consumed. -/
def splitAtChar (d : Char) : List Char → Option (List Char × List Char)
  | [] => none
  | c :: cs =>
    if c = d then some ([], cs)
    else (splitAtChar d cs).map (fun pr => (c :: pr.1, pr.2))

/-! ## Decimal formatting and parsing

Models of the `fmt` verb `%d` and of `strconv.Atoi` as used by the codec.
-/

/-- Numeric value of a decimal digit character. -/
def digitVal (c : Char) : Nat := c.toNat - 48

/-- Fuel-driven digit emitter behind `natChars` (most significant digit
first); structural recursion so that the kernel can evaluate it. -/
def natCharsAux : Nat → Nat → List Char → List Char
  | 0, _, acc => acc
  | fuel + 1, n, acc =>
    if n < 10 then Nat.digitChar n :: acc
    else natCharsAux fuel (n / 10) (Nat.digitChar (n % 10) :: acc)

/-- Decimal rendering of a natural number, as Go fmt's `%d` prints it. -/
def natChars (n : Nat) : List Char := natCharsAux (n + 1) n []

/-- Decimal rendering of an integer, as Go fmt's `%d` prints it. -/
def intChars (i : Int) : List Char :=
  if i < 0 then '-' :: natChars i.natAbs else natChars i.natAbs

/-- All-digit parse of a natural number (no sign); `none` on the empty string
or on any non-digit, as Go's strconv does. -/
def parseNat? (cs : List Char) : Option Nat :=
  if cs.isEmpty then none
  else if cs.all Char.isDigit then
    some (cs.foldl (fun a c => 10 * a + digitVal c) 0)
  else none

/-- Model of strconv.Atoi: optional sign followed by digits.  Arbitrary
precision (Go's overflow error is not modelled; no claim exercises it). -/
def goAtoi : List Char → Option Int
  | [] => none
  | c :: rest =>
    if c = '-' then (parseNat? rest).map (fun n => -(n : Int))
    else if c = '+' then (parseNat? rest).map (fun n => (n : Int))
    else (parseNat? (c :: rest)).map (fun n => (n : Int))

/-- Go fmt's `%v` rendering of a boolean. -/
def goBool (b : Bool) : List Char := if b then "true".data else "false".data

/-- Parse exactly `true` or `false`. -/
def parseGoBool (s : List Char) : Option Bool :=
  if s = "true".data then some true
  else if s = "false".data then some false else none

/-- Parse a boolean that is the final field of an object: the closing brace
must follow immediately. -/
def parseBoolEnd (r : List Char) : Option Bool :=
  if r = "true".data ++ ['\x7d'] then some true
  else if r = "false".data ++ ['\x7d'] then some false else none

/-- Parse an integer that is the final field of an object: the closing brace
must follow immediately and end the input. -/
def parseIntEnd (r : List Char) : Option Int := do
  let pr ← splitAtChar '\x7d' r
  if pr.2 = [] then goAtoi pr.1 else none

/-! ## Field-name literals of the wire format (snappy.go lines 76-124, 143-198) -/

def litKey : List Char := "\x7b\"key\":".data
def litLFL : List Char := "\"laserFocalLength\":".data
def litLP : List Char := "\"laserPower\":".data
def litLC : List Char := "\"laserCamera\":".data
def litIR : List Char := "\"isReady\":".data
def litLED : List Char := "\"led\":".data
def litFan : List Char := "\"fan\":".data
def litIDE : List Char := "\"isDoorEnabled\":".data
def litIEDO : List Char := "\"isEnclosureDoorOpen\":".data
def litDSC : List Char := "\"doorSwitchCount\":".data
def litIES : List Char := "\"isEmergencyStopped\":".data
def litQSS : List Char := "\"quickSwapState\":".data
def litQST : List Char := "\"quickSwapType\":".data
def litBKS : List Char := "\"bracingKitState\":".data
def litSS : List Char := "\"spindleSpeed\":".data

/-! ## Module variant data model (snappy.go lines 61-124)

The float64 fields of `ModuleLaser` are embedded through a type parameter `F`
together with an explicit formatting/parsing pair, because machine floating
point does not translate to the shallow embedding directly.  Go's
strconv/fmt contract (the shortest `%g` rendering of a float64 parses back
to the identical value, and never contains a comma) becomes the
`FloatCodecOK` hypothesis below.
-/

structure ModuleLaser (F : Type) where
  laserFocalLength : F
  laserPower : F
  laserCamera : Bool
deriving DecidableEq

structure ModuleEnclosure where
  isReady : Bool
  led : Int
  fan : Int
  isDoorEnabled : Bool
  isEnclosureDoorOpen : Bool
  doorSwitchCount : Int
deriving DecidableEq

structure ModuleEmergencyStop where
  isEmergencyStopped : Bool
deriving DecidableEq

structure ModuleQuickSwap where
  quickSwapState : Int
  quickSwapType : Int
deriving DecidableEq

structure ModuleBracingKit where
  bracingKitState : Int
deriving DecidableEq

structure ModuleCNC where
  spindleSpeed : Int
deriving DecidableEq

/-- The payload of a `ModuleDetail`: one of the six recognized variants, or
`unknown` for a record whose shape matched none of the structural
signatures (Go leaves the `Module` interface field nil in that case). -/
inductive ModuleVariant (F : Type) where
  | laser (m : ModuleLaser F)
  | enclosure (m : ModuleEnclosure)
  | emergencyStop (m : ModuleEmergencyStop)
  | quickSwap (m : ModuleQuickSwap)
  | bracingKit (m : ModuleBracingKit)
  | cnc (m : ModuleCNC)
  | unknown
deriving DecidableEq

/-- Model of the ModuleDetail struct: an integer key plus a polymorphic
payload. -/
structure ModuleDetail (F : Type) where
  Key : Int
  Module : ModuleVariant F
deriving DecidableEq

/-- Errors of the package (snappy.go lines 23-30), plus explicit constructors
for the transport-level and decode-level failures Go surfaces as wrapped
errors. -/
inductive SnapErr where
  | notConnected
  | invalidToken
  | noKey
  | canceled
  | invalid
  | noCamera
  | strconvErr
  | jsonDecode
  | netError
  | httpError (code : Nat)
  | unsupportedSeries (s : String)
deriving DecidableEq

/-! ## Encoding (the MarshalJSON methods, snappy.go lines 76-140) -/

/-- ModuleLaser.MarshalJSON (snappy.go line 76). -/
def ModuleLaser.marshalJSON {F : Type} (fmtF : F → List Char)
    (m : ModuleLaser F) : List Char :=
  litLFL ++ fmtF m.laserFocalLength ++ [','] ++
    litLP ++ fmtF m.laserPower ++ [','] ++
    litLC ++ goBool m.laserCamera

/-- ModuleEnclosure.MarshalJSON (snappy.go line 89). -/
def ModuleEnclosure.marshalJSON (m : ModuleEnclosure) : List Char :=
  litIR ++ goBool m.isReady ++ [','] ++
    litLED ++ intChars m.led ++ [','] ++
    litFan ++ intChars m.fan ++ [','] ++
    litIDE ++ goBool m.isDoorEnabled ++ [','] ++
    litIEDO ++ goBool m.isEnclosureDoorOpen ++ [','] ++
    litDSC ++ intChars m.doorSwitchCount

/-- ModuleEmergencyStop.MarshalJSON (snappy.go line 97). -/
def ModuleEmergencyStop.marshalJSON (m : ModuleEmergencyStop) : List Char :=
  litIES ++ goBool m.isEmergencyStopped

/-- ModuleQuickSwap.MarshalJSON (snappy.go line 106). -/
def ModuleQuickSwap.marshalJSON (m : ModuleQuickSwap) : List Char :=
  litQSS ++ intChars m.quickSwapState ++ [','] ++
    litQST ++ intChars m.quickSwapType

/-- ModuleBracingKit.MarshalJSON (snappy.go line 114). -/
def ModuleBracingKit.marshalJSON (m : ModuleBracingKit) : List Char :=
  litBKS ++ intChars m.bracingKitState

/-- ModuleCNC.MarshalJSON (snappy.go line 122). -/
def ModuleCNC.marshalJSON (m : ModuleCNC) : List Char :=
  litSS ++ intChars m.spindleSpeed

/-- Dispatch on the payload's own MarshalJSON.  `unknown` has no encoder: in
Go the nil `Module` interface would panic, so the model returns `none`. -/
def ModuleVariant.marshalJSON {F : Type} (fmtF : F → List Char) :
    ModuleVariant F → Option (List Char)
  | .laser m => some (m.marshalJSON fmtF)
  | .enclosure m => some m.marshalJSON
  | .emergencyStop m => some m.marshalJSON
  | .quickSwap m => some m.marshalJSON
  | .bracingKit m => some m.marshalJSON
  | .cnc m => some m.marshalJSON
  | .unknown => none

/-- ModuleDetail.MarshalJSON (snappy.go line 134): re-attach the key around
the variant's own field list. -/
def ModuleDetail.marshalJSON {F : Type} (fmtF : F → List Char)
    (d : ModuleDetail F) : Option (List Char) :=
  (d.Module.marshalJSON fmtF).map
    (fun body => litKey ++ intChars d.Key ++ [','] ++ body ++ ['\x7d'])

/-! ## Decoding (ModuleDetail.UnmarshalJSON, snappy.go lines 142-200)

The six `json.Unmarshal(val, ...)` calls into the variant structs are Go
standard-library code, not repository code; they are modelled as parsers of
the canonical field order the encoders emit (Go's decoder accepts at least
those encodings; no claim exercises re-ordered fields).
-/

/-- Modelled from the spec: `json.Unmarshal` into ModuleLaser on the
canonical encoder output (snappy.go line 162). -/
def parseModuleLaser {F : Type} (parseF : List Char → Option F)
    (val : List Char) : Option (ModuleLaser F) := do
  let r1 ← dropLit ('\x7b' :: litLFL) val
  let p1 ← splitAtChar ',' r1
  let a ← parseF p1.1
  let r2 ← dropLit litLP p1.2
  let p2 ← splitAtChar ',' r2
  let b ← parseF p2.1
  let r3 ← dropLit litLC p2.2
  let cam ← parseBoolEnd r3
  pure ⟨a, b, cam⟩

/-- Modelled from the spec: `json.Unmarshal` into ModuleEnclosure on the
canonical encoder output (snappy.go line 168). -/
def parseModuleEnclosure (val : List Char) : Option ModuleEnclosure := do
  let r1 ← dropLit ('\x7b' :: litIR) val
  let p1 ← splitAtChar ',' r1
  let b1 ← parseGoBool p1.1
  let r2 ← dropLit litLED p1.2
  let p2 ← splitAtChar ',' r2
  let i1 ← goAtoi p2.1
  let r3 ← dropLit litFan p2.2
  let p3 ← splitAtChar ',' r3
  let i2 ← goAtoi p3.1
  let r4 ← dropLit litIDE p3.2
  let p4 ← splitAtChar ',' r4
  let b2 ← parseGoBool p4.1
  let r5 ← dropLit litIEDO p4.2
  let p5 ← splitAtChar ',' r5
  let b3 ← parseGoBool p5.1
  let r6 ← dropLit litDSC p5.2
  let i3 ← parseIntEnd r6
  pure ⟨b1, i1, i2, b2, b3, i3⟩

/-- Modelled from the spec: `json.Unmarshal` into ModuleEmergencyStop on the
canonical encoder output (snappy.go line 174). -/
def parseModuleEmergencyStop (val : List Char) : Option ModuleEmergencyStop := do
  let r1 ← dropLit ('\x7b' :: litIES) val
  let b ← parseBoolEnd r1
  pure ⟨b⟩

/-- Modelled from the spec: `json.Unmarshal` into ModuleQuickSwap on the
canonical encoder output (snappy.go line 180). -/
def parseModuleQuickSwap (val : List Char) : Option ModuleQuickSwap := do
  let r1 ← dropLit ('\x7b' :: litQSS) val
  let p1 ← splitAtChar ',' r1
  let i1 ← goAtoi p1.1
  let r2 ← dropLit litQST p1.2
  let i2 ← parseIntEnd r2
  pure ⟨i1, i2⟩

/-- Modelled from the spec: `json.Unmarshal` into ModuleBracingKit on the
canonical encoder output (snappy.go line 186). -/
def parseModuleBracingKit (val : List Char) : Option ModuleBracingKit := do
  let r1 ← dropLit ('\x7b' :: litBKS) val
  let i ← parseIntEnd r1
  pure ⟨i⟩

/-- Modelled from the spec: `json.Unmarshal` into ModuleCNC on the canonical
encoder output (snappy.go line 192). -/
def parseModuleCNC (val : List Char) : Option ModuleCNC := do
  let r1 ← dropLit ('\x7b' :: litSS) val
  let i ← parseIntEnd r1
  pure ⟨i⟩

/-- Front half of ModuleDetail.UnmarshalJSON (snappy.go lines 143-158): check
the `\x7b"key":` prefix, locate the first comma, Atoi the key, reject a
negative key, and re-wrap the remaining fields as a standalone object. -/
def extractKey (b : List Char) : Except SnapErr (Int × List Char) :=
  if startsWith litKey b = false then .error .noKey
  else
    match indexOfSub [','] (b.drop 7) with
    | none => .error .noKey
    | some i =>
      match goAtoi ((b.drop 7).take i) with
      | none => .error .strconvErr
      | some k =>
        if k < 0 then .error .noKey
        else .ok (k, '\x7b' :: (b.drop 7).drop (i + 1))

/-- The structural signature tests of the decoder's switch, in source order
(snappy.go lines 159-196). -/
def sniffAny (val : List Char) : Bool :=
  containsSub litLP val || containsSub litIEDO val || containsSub litIES val ||
    containsSub litQSS val || containsSub litBKS val || containsSub litSS val

/-- Back half of ModuleDetail.UnmarshalJSON (snappy.go lines 159-199): the
switch over structural signatures, first match wins; no match keeps the
record with an unknown payload (Go logs and leaves `Module` nil). -/
def sniffAndParse {F : Type} (parseF : List Char → Option F) (k : Int)
    (val : List Char) : Except SnapErr (ModuleDetail F) :=
  if containsSub litLP val then
    match parseModuleLaser parseF val with
    | none => .error .jsonDecode
    | some m => .ok ⟨k, .laser m⟩
  else if containsSub litIEDO val then
    match parseModuleEnclosure val with
    | none => .error .jsonDecode
    | some m => .ok ⟨k, .enclosure m⟩
  else if containsSub litIES val then
    match parseModuleEmergencyStop val with
    | none => .error .jsonDecode
    | some m => .ok ⟨k, .emergencyStop m⟩
  else if containsSub litQSS val then
    match parseModuleQuickSwap val with
    | none => .error .jsonDecode
    | some m => .ok ⟨k, .quickSwap m⟩
  else if containsSub litBKS val then
    match parseModuleBracingKit val with
    | none => .error .jsonDecode
    | some m => .ok ⟨k, .bracingKit m⟩
  else if containsSub litSS val then
    match parseModuleCNC val with
    | none => .error .jsonDecode
    | some m => .ok ⟨k, .cnc m⟩
  else .ok ⟨k, .unknown⟩

/-- ModuleDetail.UnmarshalJSON (snappy.go line 142), composed from its two
halves. -/
def ModuleDetail.unmarshalJSON {F : Type} (parseF : List Char → Option F)
    (b : List Char) : Except SnapErr (ModuleDetail F) :=
  match extractKey b with
  | .error e => .error e
  | .ok kv => sniffAndParse parseF kv.1 kv.2

/-- Modelled from the spec: `encoding/json` array decoding invokes each
element's UnmarshalJSON in order and aborts at the first failing element,
as when decoding the `moduleInfo` listing of a ModResult. -/
def decodeListing {F : Type} (parseF : List Char → Option F) :
    List (List Char) → Except SnapErr (List (ModuleDetail F))
  | [] => .ok []
  | b :: rest =>
    match ModuleDetail.unmarshalJSON parseF b with
    | .error e => .error e
    | .ok d =>
      match decodeListing parseF rest with
      | .error e => .error e
      | .ok ds => .ok (d :: ds)

/-- A record with a well-formed non-negative key whose remaining fields match
none of the six structural signatures. -/
def isUnknownRec (b : List Char) : Bool :=
  match extractKey b with
  | .ok kv => !sniffAny kv.2
  | .error _ => false

/-- The contract the real float64 codec (fmt `%g` printing, strconv parsing)
satisfies per Go's strconv documentation: formatting round-trips through
parsing, and a formatted number never contains a comma. -/
def FloatCodecOK {F : Type} (fmtF : F → List Char)
    (parseF : List Char → Option F) : Prop :=
  (∀ x, parseF (fmtF x) = some x) ∧ (∀ x, ',' ∉ fmtF x)

/-- Concrete instance of the float-codec contract used by witnesses: a
two-value carrier rendered as the digit 1 or 0. -/
def bitFmt (b : Bool) : List Char := if b then ['1'] else ['0']

/-- Parser inverse of `bitFmt`. -/
def bitParse (s : List Char) : Option Bool :=
  if s = ['1'] then some true else if s = ['0'] then some false else none

/-! ## Session data model (snappy.go lines 32-59, 202-251, 263-271) -/

/-- The Module struct of a module_list entry (snappy.go line 34). -/
structure Module where
  Key : Int
  ModuleID : Int
  Status : Bool
deriving DecidableEq

/-- ModuleListing (snappy.go line 48). -/
structure ModuleListing where
  ModuleList : List Module
deriving DecidableEq

/-- EnclosureResult (snappy.go line 54). -/
structure EnclosureResult where
  IsReady : Bool
  IsDoorEnabled : Bool
  LED : Int
  Fan : Int
deriving DecidableEq

/-- ModResult (snappy.go line 204); the session stores variant payloads over
the `Rat` float carrier. -/
structure ModResult where
  ModuleInfo : List (ModuleDetail Rat)
deriving DecidableEq

/-- StatusResult (snappy.go line 209); float64 fields become `Rat`, the
`map[string]bool` becomes an association list. -/
structure StatusResult where
  Status : String
  X : Rat
  Y : Rat
  Z : Rat
  Homed : Bool
  OffsetX : Rat
  OffsetY : Rat
  OffsetZ : Rat
  ToolHead : String
  LaserFocalLength : Rat
  LaserPower : Rat
  LaserCamera : Bool
  Laser10WErrorState : Int
  WorkSpeed : Int
  PrintStatus : String
  FileName : String
  TotalLines : Int
  EstimatedTime : Rat
  CurrentLine : Int
  Progress : Rat
  ElapsedTime : Int
  RemainingTime : Int
  ModuleList : List (String × Bool)
  IsEnclosureDoorOpen : Bool
  DoorSwitchCount : Int
deriving DecidableEq

/-- ConnectionResult (snappy.go line 265). -/
structure ConnectionResult where
  Token : String
  ReadOnly : Bool
  Series : String
  HeadType : Int
  HasEnclosure : Bool
deriving DecidableEq

/-- Conn (snappy.go line 238).  The sync.Mutex has no data content; lock
discipline is modelled separately by the event traces below. -/
structure Conn where
  url : String
  token : String
  connected : Bool
  moving : Bool
  readOnly : Bool
  headType : Int
  hasEnclosure : Bool
  modList : ModuleListing
  encState : EnclosureResult
  modState : ModResult
  toolState : StatusResult
deriving DecidableEq

/-- Zero value of StatusResult (all snapshots start empty). -/
def emptyStatus : StatusResult :=
  ⟨"", 0, 0, 0, false, 0, 0, 0, "", 0, 0, false, 0, 0, "", "", 0, 0, 0, 0, 0,
    0, [], false, 0⟩

/-- Zero value of EnclosureResult. -/
def emptyEnc : EnclosureResult := ⟨false, false, 0, 0⟩

/-- Zero value of ModResult. -/
def emptyMod : ModResult := ⟨[]⟩

/-- Zero value of ModuleListing. -/
def emptyListing : ModuleListing := ⟨[]⟩

/-- A concrete connected, idle session used by witnesses. -/
def demoConn : Conn :=
  { url := "http://10.0.0.2:8080", token := "tok", connected := true,
    moving := false, readOnly := false, headType := 2, hasEnclosure := true,
    modList := emptyListing, encState := emptyEnc, modState := emptyMod,
    toolState := emptyStatus }

/-! ## Operations (snappy.go lines 274-586)

Network and decode outcomes are explicit parameters: an operation that in Go
performs an HTTP request here receives, for each request, the value the
request-plus-decode would have produced.
-/

/-- Outcome of a single HTTP POST as seen by the caller. -/
inductive HttpOutcome where
  | netFail
  | status (code : Nat)
deriving DecidableEq

/-- Conn.Status (snappy.go line 340): refuse when disconnected, fan out the
enclosure query (only when the session has an enclosure), the module-info
query and the tool query, merge each successful result into its own snapshot,
and report errors with priority enclosure, then module, then tool. -/
def Conn.Status (c : Conn) (encR : Except SnapErr EnclosureResult)
    (modR : Except SnapErr ModResult) (toolR : Except SnapErr StatusResult) :
    Conn × Option SnapErr :=
  if c.connected = false then (c, some .notConnected)
  else
    let c1 := if c.hasEnclosure then
        match encR with
        | .ok v => { c with encState := v }
        | .error _ => c
      else c
    let c2 := match modR with
      | .ok v => { c1 with modState := v }
      | .error _ => c1
    let c3 := match toolR with
      | .ok v => { c2 with toolState := v }
      | .error _ => c2
    let errEnc : Option SnapErr :=
      if c.hasEnclosure then
        match encR with
        | .error e => some e
        | .ok _ => none
      else none
    let errMod : Option SnapErr :=
      match modR with
      | .error e => some e
      | .ok _ => none
    let errTool : Option SnapErr :=
      match toolR with
      | .error e => some e
      | .ok _ => none
    (c3,
      match errEnc with
      | some e => some e
      | none =>
        match errMod with
        | some e => some e
        | none => errTool)

/-- Conn.Close (snappy.go line 274): error when already disconnected;
otherwise POST the disconnect call and flip `connected` only on HTTP 200. -/
def Conn.Close (c : Conn) (disc : HttpOutcome) : Conn × Option SnapErr :=
  if c.connected = false then (c, some .notConnected)
  else
    match disc with
    | .netFail => (c, some .netError)
    | .status code =>
      if code = 200 then ({ c with connected := false }, none)
      else (c, some (.httpError code))

/-- The locked test-and-set at the top of each waitToMove iteration
(snappy.go lines 454-460): read `connected`, and when connected and not
moving, set `moving` and report success.  Returns the new state, the `able`
flag and the `started` flag. -/
def acquireTry (c : Conn) : Conn × Bool × Bool :=
  if c.connected && !c.moving then ({ c with moving := true }, true, true)
  else (c, c.connected, false)

/-- Conn.waitToMove (snappy.go line 451) under single-thread semantics: each
iteration runs `acquireTry`; failure to acquire reaches the select, which
returns `canceled` when the context has fired and otherwise retries after
1ms (one unit of fuel).  `none` models an attempt still waiting when the
fuel runs out. -/
def waitToMove : Nat → Conn → Bool → Option (Option SnapErr × Conn)
  | 0, _, _ => none
  | fuel + 1, c, ctxCanceled =>
    let t := acquireTry c
    if t.2.1 = false then some (some .notConnected, t.1)
    else if t.2.2 then some (none, t.1)
    else if ctxCanceled then some (some .canceled, t.1)
    else waitToMove fuel t.1 ctxCanceled

/-- Conn.stopMoving (snappy.go line 517): unconditionally clear the moving
flag. -/
def stopMoving (c : Conn) : Conn := { c with moving := false }

/-- Conn.MoveTo (snappy.go line 571): acquire the motion gate, issue the
G0 command (outcome `codeErr`), and only on success overwrite the cached
X, Y, Z with the requested target; stopMoving runs on every exit path. -/
def MoveTo (fuel : Nat) (c : Conn) (ctxCanceled : Bool)
    (codeErr : Option SnapErr) (x y z : Rat) :
    Option (Option SnapErr × Conn) :=
  match waitToMove fuel c ctxCanceled with
  | none => none
  | some (some e, c') => some (some e, c')
  | some (none, c') =>
    match codeErr with
    | some e => some (some e, stopMoving c')
    | none =>
      some (none, stopMoving
        { c' with toolState := { c'.toolState with X := x, Y := y, Z := z } })

/-- NewConn (snappy.go line 409): handshake outcome, token echo check, series
check, then session construction; the second component is the error NewConn
returns alongside the session (the first refresh delivered by pollStatus). -/
inductive Handshake where
  | netFail
  | badStatus (code : Nat)
  | badJSON
  | ok (res : ConnectionResult)
deriving DecidableEq

/-- NewConn (snappy.go line 409).  `boot` is the result pollStatus delivers
for the first refresh; Go returns the freshly built Conn together with that
result. -/
def NewConn (ip tok : String) (h : Handshake) (boot : Option SnapErr) :
    Option Conn × Option SnapErr :=
  match h with
  | .netFail => (none, some .netError)
  | .badStatus code => (none, some (.httpError code))
  | .badJSON => (none, some .jsonDecode)
  | .ok res =>
    if res.Token ≠ tok then (none, some .invalidToken)
    else if res.Series ≠ "Snapmaker 2.0 A350" then
      (none, some (.unsupportedSeries res.Series))
    else
      (some { url := "http://" ++ ip ++ ":8080", token := tok,
              connected := true, moving := false, readOnly := res.ReadOnly,
              headType := res.HeadType, hasEnclosure := res.HasEnclosure,
              modList := emptyListing, encState := emptyEnc,
              modState := emptyMod, toolState := emptyStatus }, boot)

/-- How the background polling goroutine of pollStatus (snappy.go line 378)
ends. -/
inductive PollEnd where
  | fatalProcessExit (e : SnapErr)
  | ctxCanceled
  | earlyReturn
deriving DecidableEq

/-- The steady-state loop of pollStatus after the first refresh has been
delivered: each entry of the list is one refresh outcome; a `some` outcome
hits `log.Fatalf`, which terminates the whole process; when the outcomes are
exhausted the context fires at the next select and the goroutine returns. -/
def pollLoopAux : List (Option SnapErr) → PollEnd
  | [] => .ctxCanceled
  | none :: rest => pollLoopAux rest
  | some e :: _ => .fatalProcessExit e

/-- pollStatus (snappy.go line 378): the initial modListing outcome, the
first refresh outcome (delivered synchronously through the one-shot channel)
and the later refresh outcomes.  Returns the delivered result and how the
goroutine ends.  A failing first refresh is delivered and then also hits
`log.Fatalf`. -/
def pollStatusModel (listingErr : Option SnapErr) (first : Option SnapErr)
    (rest : List (Option SnapErr)) : Option SnapErr × PollEnd :=
  match listingErr with
  | some e => (some e, .earlyReturn)
  | none =>
    match first with
    | some e => (some e, .fatalProcessExit e)
    | none => (none, pollLoopAux rest)

/-! ## The motion gate as a transition system (for mutual exclusion)

`holders` is the ghost count of callers whose `waitToMove` has returned
success and whose matching `stopMoving` has not yet run.  `rel` carries the
package's release discipline: stopMoving is package-private and every caller
of waitToMove runs it on every exit path after a successful acquire.
-/

structure GateSys where
  conn : Conn
  holders : Nat

/-- One scheduler step of the motion gate: a successful locked test-and-set
(`acq`), a failed one that leaves the state unchanged (`spin`), or a
holder's stopMoving (`rel`). -/
inductive GateStep : GateSys → GateSys → Prop where
  | acq (s : GateSys) (c' : Conn) (h : acquireTry s.conn = (c', true, true)) :
      GateStep s ⟨c', s.holders + 1⟩
  | spin (s : GateSys) (c' : Conn) (ab : Bool)
      (h : acquireTry s.conn = (c', ab, false)) : GateStep s ⟨c', s.holders⟩
  | rel (s : GateSys) (h : 0 < s.holders) :
      GateStep s ⟨stopMoving s.conn, s.holders - 1⟩

/-- States reachable from an initial session `c0` with no holder. -/
inductive GateReach (c0 : Conn) : GateSys → Prop where
  | base : GateReach c0 ⟨c0, 0⟩
  | step {s s' : GateSys} : GateReach c0 s → GateStep s s' → GateReach c0 s'

/-! ## Lock discipline traces (which snapshot writes happen under the lock)

Each operation of the package is abstracted to its sequence of mutex and
snapshot-write events, in source order.  Reads and non-snapshot writes (the
`moving` and `connected` flags) carry no event.
-/

/-- The four cached snapshots of a session. -/
inductive SnapField where
  | encS
  | modS
  | toolS
  | modListS
deriving DecidableEq

/-- A mutex or snapshot-write event. -/
inductive LockEv where
  | lock
  | unlock
  | write (f : SnapField)
deriving DecidableEq

/-- The snapshot writes a trace performs while no lock is held (`d` is the
current lock depth). -/
def unlockedWrites : List LockEv → Nat → List SnapField
  | [], _ => []
  | .lock :: r, d => unlockedWrites r (d + 1)
  | .unlock :: r, d => unlockedWrites r (d - 1)
  | .write f :: r, d => (if d = 0 then [f] else []) ++ unlockedWrites r d

/-- A trace respects the lock discipline when it performs no unlocked
snapshot write. -/
def writesLocked (t : List LockEv) : Bool := (unlockedWrites t 0).isEmpty

/-- Conn.Status (snappy.go line 340): the mutex is held by the Status call
for the whole fan-out/fan-in, so every subsystem write lands under it. -/
def statusTrace (hasEnc : Bool) : List LockEv :=
  [.lock] ++ (if hasEnc then [.write .encS] else []) ++
    [.write .modS, .write .toolS, .unlock]

/-- pollStatus (snappy.go lines 378-406): the goroutine first runs
c.modListing() — writing the module-listing snapshot with no lock held —
then repeatedly runs Status; one loop unrolling shown. -/
def pollStatusTrace (hasEnc : Bool) : List LockEv :=
  .write .modListS :: statusTrace hasEnc

/-- Conn.waitToMove's locked test-and-set (snappy.go lines 454-460); writes
only the `moving` flag, not a snapshot. -/
def waitToMoveTrace : List LockEv := [.lock, .unlock]

/-- Conn.stopMoving (snappy.go line 517). -/
def stopMovingTrace : List LockEv := [.lock, .unlock]

/-- Conn.doCode's connected check (snappy.go lines 495-497). -/
def doCodeTrace : List LockEv := [.lock, .unlock]

/-- Conn.MoveTo (snappy.go line 571): waitToMove, doCode, the locked
position write, stopMoving. -/
def moveToTrace : List LockEv :=
  waitToMoveTrace ++ doCodeTrace ++ [.lock, .write .toolS, .unlock] ++
    stopMovingTrace

/-- Conn.Step (snappy.go line 589): waitToMove, three doCode calls, a full
Status refresh, stopMoving. -/
def stepTrace (hasEnc : Bool) : List LockEv :=
  waitToMoveTrace ++ doCodeTrace ++ doCodeTrace ++ doCodeTrace ++
    statusTrace hasEnc ++ stopMovingTrace

/-- Conn.Close (snappy.go line 274): flag write only, under the lock. -/
def closeTrace : List LockEv := [.lock, .unlock]

/-- Conn.NowMoving (snappy.go line 255). -/
def nowMovingTrace : List LockEv := [.lock, .unlock]

/-- Read-only accessors that lock around snapshot reads: Homed, Await's
poll, CurrentLocation, Running, EnclosureFanNotRunning, DumpState,
SnapJPEG's position read (snappy.go lines 444, 479, 630, 663, 711, 731,
863). -/
def readSnapshotTrace : List LockEv := [.lock, .unlock]

/-- Simple wrappers that touch no snapshot and no lock: EncFan, EncLED,
PauseProgram, ResumeProgram, StopProgram, ToolHead (snappy.go lines 670-706,
815-858, 874-881). -/
def plainRequestTrace : List LockEv := []

/-- Conn.Home / SetOrigin / GoToOrigin / LaserSpot / LaserCrossHairs
(snappy.go lines 534-568, 604-626): gate acquire, G-code calls, release; no
snapshot write. -/
def gatedCommandTrace : List LockEv :=
  waitToMoveTrace ++ doCodeTrace ++ stopMovingTrace

/-- Conn.RunProgram reads the tool head under the lock and performs no
snapshot write (snappy.go line 752). -/
def runProgramTrace : List LockEv := [.lock, .unlock]

/-- Every operation of the package, as its lock/write trace (both values of
the enclosure flag where the trace depends on it). -/
def packageTraces : List (List LockEv) :=
  [statusTrace true, statusTrace false, pollStatusTrace true,
    pollStatusTrace false, moveToTrace, stepTrace true, stepTrace false,
    waitToMoveTrace, stopMovingTrace, doCodeTrace, closeTrace,
    nowMovingTrace, readSnapshotTrace, plainRequestTrace, gatedCommandTrace,
    runProgramTrace]

/-! # Theorems

First the generic lemmas about the byte-slice helpers and the decimal codec,
then the per-claim results.
-/

/-- A pattern is a left factor of itself followed by anything. -/
theorem startsWith_append (p r : List Char) : startsWith p (p ++ r) = true := by
  induction p with
  | nil => rfl
  | cons c cs ih => simp [startsWith, ih]

/-- Characters of a matched pattern occur in the text. -/
theorem mem_of_startsWith : ∀ {p s : List Char}, startsWith p s = true →
    ∀ c ∈ p, c ∈ s
  | [], _, _, c, hc => by simp at hc
  | _ :: _, [], h, _, _ => by simp [startsWith] at h
  | a :: as, b :: bs, h, c, hc => by
    simp only [startsWith] at h
    split at h
    · next hab =>
      subst hab
      rcases List.mem_cons.mp hc with rfl | hc'
      · exact List.mem_cons_self _ _
      · exact List.mem_cons_of_mem _ (mem_of_startsWith h c hc')
    · exact absurd h (by simp)

/-- Characters of a contained pattern occur in the text. -/
theorem mem_of_containsSub : ∀ {s p : List Char}, containsSub p s = true →
    ∀ c ∈ p, c ∈ s
  | [], p, h, c, hc => mem_of_startsWith (by simpa [containsSub] using h) c hc
  | b :: bs, p, h, c, hc => by
    simp only [containsSub, Bool.or_eq_true] at h
    rcases h with h | h
    · exact mem_of_startsWith h c hc
    · exact List.mem_cons_of_mem _ (mem_of_containsSub h c hc)

/-- A match at the front is a containment. -/
theorem containsSub_of_startsWith {p s : List Char}
    (h : startsWith p s = true) : containsSub p s = true := by
  cases s with
  | nil => simpa [containsSub] using h
  | cons c cs => simp [containsSub, h]

/-- A pattern spliced into the middle of a text is contained in it. -/
theorem containsSub_mid (p x y : List Char) :
    containsSub p (x ++ (p ++ y)) = true := by
  induction x with
  | nil => exact containsSub_of_startsWith (startsWith_append p y)
  | cons c cs ih => simp [containsSub, ih]

/-- A text missing one of the pattern's characters cannot contain it. -/
theorem containsSub_eq_false {p s : List Char} {c : Char} (hc : c ∈ p)
    (hs : c ∉ s) : containsSub p s = false := by
  cases h : containsSub p s
  · rfl
  · exact absurd (mem_of_containsSub h c hc) hs

/-- Dropping the length of a left factor removes exactly it. -/
theorem drop_len_append (p r : List Char) : (p ++ r).drop p.length = r := by
  induction p with
  | nil => rfl
  | cons c cs ih => exact ih

/-- Taking the length of a left factor keeps exactly it. -/
theorem take_len_append (p r : List Char) : (p ++ r).take p.length = p := by
  induction p with
  | nil => rfl
  | cons c cs ih => simp only [List.cons_append, List.length_cons,
      List.take_succ_cons, ih]

/-- The first comma after a comma-free chunk is found at the chunk's
length. -/
theorem indexOfSub_comma : ∀ (l r : List Char), ',' ∉ l →
    indexOfSub [','] (l ++ ',' :: r) = some l.length
  | [], r, _ => by simp [indexOfSub, startsWith]
  | c :: cs, r, h => by
    have hc : ¬(',' = c) := by
      intro hh
      rw [hh] at h
      exact h (List.mem_cons_self _ _)
    simp only [List.cons_append, indexOfSub, startsWith, if_neg hc,
      List.append_eq]
    rw [if_neg (by simp), indexOfSub_comma cs r
      (fun hh => h (List.mem_cons_of_mem _ hh))]
    simp

/-- `dropLit` consumes exactly the literal it was given. -/
theorem dropLit_self (p r : List Char) : dropLit p (p ++ r) = some r := by
  simp [dropLit, startsWith_append, drop_len_append]

/-- Cons-shaped form of `dropLit_self`. -/
theorem dropLit_cons_self (c : Char) (p r : List Char) :
    dropLit (c :: p) (c :: (p ++ r)) = some r := dropLit_self (c :: p) r

/-- Splitting at a delimiter absent from the head chunk. -/
theorem splitAtChar_append : ∀ (l r : List Char) (d : Char), d ∉ l →
    splitAtChar d (l ++ d :: r) = some (l, r)
  | [], r, d, _ => by simp [splitAtChar]
  | c :: cs, r, d, h => by
    have hc : ¬(c = d) := by
      intro hh
      rw [← hh] at h
      exact h (List.mem_cons_self _ _)
    simp only [List.cons_append, splitAtChar, if_neg hc, List.append_eq]
    rw [splitAtChar_append cs r d (fun hh => h (List.mem_cons_of_mem _ hh))]
    rfl

/-- Facts about the ten decimal digit characters. -/
theorem digitChar_facts : ∀ d : Fin 10,
    digitVal (Nat.digitChar d.val) = d.val ∧
    (Nat.digitChar d.val).isDigit = true ∧
    Nat.digitChar d.val ∈ "0123456789".data := by decide

/-- The fuel-driven emitter agrees with `Nat.digits` when given enough
fuel. -/
theorem natCharsAux_digits : ∀ (fuel n : Nat) (acc : List Char), n ≠ 0 →
    n < 10 ^ fuel →
    natCharsAux fuel n acc =
      ((Nat.digits 10 n).map Nat.digitChar).reverse ++ acc
  | 0, n, _, hn, hlt => absurd (Nat.lt_one_iff.mp hlt) hn
  | fuel + 1, n, acc, hn, hlt => by
    rw [natCharsAux]
    by_cases h10 : n < 10
    · rw [if_pos h10]
      have hdig : Nat.digits 10 n = [n] := by
        rw [Nat.digits_def' (by norm_num : 1 < 10) (Nat.pos_of_ne_zero hn),
          Nat.mod_eq_of_lt h10, Nat.div_eq_of_lt h10]
        simp
      simp [hdig]
    · rw [if_neg h10]
      push_neg at h10
      have hdiv_ne : n / 10 ≠ 0 := by
        have := Nat.div_pos h10 (by norm_num)
        omega
      have hdiv_lt : n / 10 < 10 ^ fuel := by
        rw [Nat.div_lt_iff_lt_mul (by norm_num)]
        calc n < 10 ^ (fuel + 1) := hlt
          _ = 10 ^ fuel * 10 := by ring
      rw [natCharsAux_digits fuel (n / 10) _ hdiv_ne hdiv_lt,
        Nat.digits_def' (by norm_num : 1 < 10) (Nat.pos_of_ne_zero hn)]
      simp

/-- `natChars` of a nonzero number is its base-10 digit string. -/
theorem natChars_digits {n : Nat} (hn : n ≠ 0) :
    natChars n = ((Nat.digits 10 n).map Nat.digitChar).reverse := by
  have hlt : n < 10 ^ (n + 1) :=
    lt_of_lt_of_le (Nat.lt_pow_self (by norm_num) n)
      (Nat.pow_le_pow_right (by norm_num) (Nat.le_succ n))
  simpa using natCharsAux_digits (n + 1) n [] hn hlt

/-- Every character `natChars` emits is a decimal digit character. -/
theorem mem_natChars {c : Char} {n : Nat} (h : c ∈ natChars n) :
    c ∈ "0123456789".data := by
  by_cases hn : n = 0
  · subst hn
    have h0 : natChars 0 = ['0'] := by decide
    rw [h0] at h
    rcases List.mem_cons.mp h with rfl | h'
    · decide
    · simp at h'
  · rw [natChars_digits hn] at h
    simp only [List.mem_reverse, List.mem_map] at h
    obtain ⟨d, hd, rfl⟩ := h
    have hlt : d < 10 := Nat.digits_lt_base (by norm_num) hd
    exact (digitChar_facts ⟨d, hlt⟩).2.2

/-- Every character `intChars` emits is a sign or a digit. -/
theorem mem_intChars {c : Char} {i : Int} (h : c ∈ intChars i) :
    c ∈ "-0123456789".data := by
  have hsub : ∀ x ∈ "0123456789".data, x ∈ "-0123456789".data := by decide
  rw [intChars] at h
  split at h
  · rcases List.mem_cons.mp h with rfl | h'
    · decide
    · exact hsub c (mem_natChars h')
  · exact hsub c (mem_natChars h)

/-- The digit string passes the all-digits test of `parseNat?`. -/
theorem natChars_all_digits (n : Nat) : ∀ c ∈ natChars n,
    c.isDigit = true := by
  intro c hc
  have := mem_natChars hc
  revert this
  have : ∀ x ∈ "0123456789".data, x.isDigit = true := by decide
  exact this c

/-- Folding the parse step over a digit list recomputes the number. -/
theorem foldr_ofDigits (l : List Nat) (hl : ∀ d ∈ l, d < 10) :
    (l.map Nat.digitChar).foldr (fun c a => 10 * a + digitVal c) 0 =
      Nat.ofDigits 10 l := by
  induction l with
  | nil => simp [Nat.ofDigits]
  | cons d ds ih =>
    simp only [List.map_cons, List.foldr_cons, Nat.ofDigits_cons]
    rw [ih (fun x hx => hl x (List.mem_cons_of_mem _ hx)),
      (digitChar_facts ⟨d, hl d (List.mem_cons_self _ _)⟩).1]
    push_cast
    ring

/-- `parseNat?` inverts `natChars`. -/
theorem parseNat_natChars (n : Nat) : parseNat? (natChars n) = some n := by
  by_cases hn : n = 0
  · subst hn
    decide
  · have hne : natChars n ≠ [] := by
      rw [natChars_digits hn]
      simpa using Nat.digits_ne_nil_iff_ne_zero.mpr hn
    rw [parseNat?, if_neg (by simpa [List.isEmpty_iff] using hne),
      if_pos (List.all_eq_true.mpr (by
        intro c hc
        simpa using natChars_all_digits n c hc))]
    congr 1
    rw [natChars_digits hn, List.foldl_reverse, foldr_ofDigits _
      (fun d hd => Nat.digits_lt_base (by norm_num) hd),
      Nat.ofDigits_digits]

/-- `goAtoi` inverts `natChars`. -/
theorem goAtoi_natChars (n : Nat) : goAtoi (natChars n) = some (n : Int) := by
  cases hcs : natChars n with
  | nil =>
    have := parseNat_natChars n
    rw [hcs] at this
    simp [parseNat?] at this
  | cons c cs =>
    have hc : c.isDigit = true :=
      natChars_all_digits n c (by rw [hcs]; exact List.mem_cons_self _ _)
    have h1 : ¬(c = '-') := by
      intro hh
      subst hh
      exact absurd hc (by decide)
    have h2 : ¬(c = '+') := by
      intro hh
      subst hh
      exact absurd hc (by decide)
    rw [goAtoi, if_neg h1, if_neg h2, ← hcs, parseNat_natChars]
    rfl

/-- `goAtoi` inverts `intChars` on every integer (the Atoi round-trip). -/
theorem goAtoi_intChars (i : Int) : goAtoi (intChars i) = some i := by
  rw [intChars]
  by_cases h : i < 0
  · rw [if_pos h, goAtoi, if_pos rfl, parseNat_natChars]
    have hne : -((i.natAbs : Int)) = i := by omega
    simpa using hne
  · rw [if_neg h, goAtoi_natChars]
    congr 1
    omega

/-- Every character `goBool` emits comes from `true` or `false`. -/
theorem mem_goBool {c : Char} {b : Bool} (h : c ∈ goBool b) :
    c ∈ "truefalse".data := by
  cases b
  · have h' : c ∈ "false".data := by simpa [goBool] using h
    exact (by decide : ∀ x ∈ "false".data, x ∈ "truefalse".data) c h'
  · have h' : c ∈ "true".data := by simpa [goBool] using h
    exact (by decide : ∀ x ∈ "true".data, x ∈ "truefalse".data) c h'

/-- `parseGoBool` inverts `goBool`. -/
theorem parseGoBool_goBool (b : Bool) : parseGoBool (goBool b) = some b := by
  cases b <;> decide

/-- `parseBoolEnd` inverts `goBool` followed by the closing brace. -/
theorem parseBoolEnd_goBool (b : Bool) :
    parseBoolEnd (goBool b ++ ['\x7d']) = some b := by
  cases b <;> decide

/-- A rendered integer contains no comma. -/
theorem comma_not_mem_intChars (i : Int) : ',' ∉ intChars i := by
  intro h
  exact absurd (mem_intChars h) (by decide)

/-- A rendered integer contains no closing brace. -/
theorem brace_not_mem_intChars (i : Int) : '\x7d' ∉ intChars i := by
  intro h
  exact absurd (mem_intChars h) (by decide)

/-- A rendered boolean contains no comma. -/
theorem comma_not_mem_goBool (b : Bool) : ',' ∉ goBool b := by
  intro h
  exact absurd (mem_goBool h) (by decide)

/-- `parseIntEnd` inverts `intChars` followed by the closing brace. -/
theorem parseIntEnd_intChars (i : Int) :
    parseIntEnd (intChars i ++ ['\x7d']) = some i := by
  have hs : splitAtChar '\x7d' (intChars i ++ '\x7d' :: []) =
      some (intChars i, []) :=
    splitAtChar_append _ _ _ (brace_not_mem_intChars i)
  simp [parseIntEnd, hs, goAtoi_intChars i]

/-- The key-extraction front end of the decoder inverts the key wrapper the
encoder produced, for any non-negative key and any body. -/
theorem extractKey_encoded (k : Int) (hk : 0 ≤ k) (body : List Char) :
    extractKey (litKey ++ intChars k ++ [','] ++ body ++ ['\x7d']) =
      .ok (k, '\x7b' :: (body ++ ['\x7d'])) := by
  have hb : litKey ++ intChars k ++ [','] ++ body ++ ['\x7d'] =
      litKey ++ (intChars k ++ ',' :: (body ++ ['\x7d'])) := by
    simp [List.append_assoc]
  have h7 : (7 : Nat) = litKey.length := by decide
  have hdrop : (litKey ++ (intChars k ++ ',' :: (body ++ ['\x7d']))).drop 7 =
      intChars k ++ ',' :: (body ++ ['\x7d']) := by
    rw [h7, drop_len_append]
  have hdrop2 : (intChars k ++ ',' :: (body ++ ['\x7d'])).drop
      ((intChars k).length + 1) = body ++ ['\x7d'] := by
    rw [show intChars k ++ ',' :: (body ++ ['\x7d']) =
        (intChars k ++ [',']) ++ (body ++ ['\x7d']) by simp,
      show (intChars k).length + 1 = (intChars k ++ [',']).length by simp,
      drop_len_append]
  rw [hb, extractKey, if_neg (by simp [startsWith_append]), hdrop,
    indexOfSub_comma _ _ (comma_not_mem_intChars k)]
  simp only [take_len_append, goAtoi_intChars, hdrop2]
  rw [if_neg (not_lt.mpr hk)]

/-- Reduction of the Option monad bind on a present value. -/
theorem someBindEq {a b : Type} (x : a) (f : a → Option b) :
    (some x >>= f) = f x := rfl

/-- The modelled laser-body parser inverts the laser encoder. -/
theorem parseLaser_marshal {F : Type} (fmtF : F → List Char)
    (parseF : List Char → Option F) (hF : FloatCodecOK fmtF parseF)
    (m : ModuleLaser F) :
    parseModuleLaser parseF ('\x7b' :: (m.marshalJSON fmtF ++ ['\x7d'])) =
      some m := by
  obtain ⟨hrt, hcm⟩ := hF
  simp [parseModuleLaser, ModuleLaser.marshalJSON, List.append_assoc,
    dropLit_cons_self, dropLit_self, splitAtChar_append, hcm, hrt,
    parseBoolEnd_goBool]

set_option maxHeartbeats 1600000 in
/-- The modelled enclosure-body parser inverts the enclosure encoder. -/
theorem parseEnclosure_marshal (m : ModuleEnclosure) :
    parseModuleEnclosure ('\x7b' :: (m.marshalJSON ++ ['\x7d'])) = some m := by
  obtain ⟨b1, i1, i2, b2, b3, i3⟩ := m
  have e0 : '\x7b' :: (ModuleEnclosure.marshalJSON ⟨b1, i1, i2, b2, b3, i3⟩ ++
      ['\x7d']) = ('\x7b' :: litIR) ++ (goBool b1 ++ ',' :: (litLED ++ (intChars i1 ++ ',' :: (litFan ++ (intChars i2 ++ ',' :: (litIDE ++ (goBool b2 ++ ',' :: (litIEDO ++ (goBool b3 ++ ',' :: (litDSC ++ (intChars i3 ++ ['\x7d']))))))))))) := by
    simp [ModuleEnclosure.marshalJSON, List.append_assoc]
  have hs1 : splitAtChar ',' (goBool b1 ++ ',' :: (litLED ++ (intChars i1 ++ ',' :: (litFan ++ (intChars i2 ++ ',' :: (litIDE ++ (goBool b2 ++ ',' :: (litIEDO ++ (goBool b3 ++ ',' :: (litDSC ++ (intChars i3 ++ ['\x7d']))))))))))) =
      some (goBool b1, litLED ++ (intChars i1 ++ ',' :: (litFan ++ (intChars i2 ++ ',' :: (litIDE ++ (goBool b2 ++ ',' :: (litIEDO ++ (goBool b3 ++ ',' :: (litDSC ++ (intChars i3 ++ ['\x7d'])))))))))) :=
    splitAtChar_append _ _ _ (comma_not_mem_goBool b1)
  have hd1 : dropLit litLED (litLED ++ (intChars i1 ++ ',' :: (litFan ++ (intChars i2 ++ ',' :: (litIDE ++ (goBool b2 ++ ',' :: (litIEDO ++ (goBool b3 ++ ',' :: (litDSC ++ (intChars i3 ++ ['\x7d'])))))))))) = some (intChars i1 ++ ',' :: (litFan ++ (intChars i2 ++ ',' :: (litIDE ++ (goBool b2 ++ ',' :: (litIEDO ++ (goBool b3 ++ ',' :: (litDSC ++ (intChars i3 ++ ['\x7d']))))))))) :=
    dropLit_self _ _
  have hs2 : splitAtChar ',' (intChars i1 ++ ',' :: (litFan ++ (intChars i2 ++ ',' :: (litIDE ++ (goBool b2 ++ ',' :: (litIEDO ++ (goBool b3 ++ ',' :: (litDSC ++ (intChars i3 ++ ['\x7d']))))))))) =
      some (intChars i1, litFan ++ (intChars i2 ++ ',' :: (litIDE ++ (goBool b2 ++ ',' :: (litIEDO ++ (goBool b3 ++ ',' :: (litDSC ++ (intChars i3 ++ ['\x7d'])))))))) :=
    splitAtChar_append _ _ _ (comma_not_mem_intChars i1)
  have hd2 : dropLit litFan (litFan ++ (intChars i2 ++ ',' :: (litIDE ++ (goBool b2 ++ ',' :: (litIEDO ++ (goBool b3 ++ ',' :: (litDSC ++ (intChars i3 ++ ['\x7d'])))))))) = some (intChars i2 ++ ',' :: (litIDE ++ (goBool b2 ++ ',' :: (litIEDO ++ (goBool b3 ++ ',' :: (litDSC ++ (intChars i3 ++ ['\x7d']))))))) :=
    dropLit_self _ _
  have hs3 : splitAtChar ',' (intChars i2 ++ ',' :: (litIDE ++ (goBool b2 ++ ',' :: (litIEDO ++ (goBool b3 ++ ',' :: (litDSC ++ (intChars i3 ++ ['\x7d']))))))) =
      some (intChars i2, litIDE ++ (goBool b2 ++ ',' :: (litIEDO ++ (goBool b3 ++ ',' :: (litDSC ++ (intChars i3 ++ ['\x7d'])))))) :=
    splitAtChar_append _ _ _ (comma_not_mem_intChars i2)
  have hd3 : dropLit litIDE (litIDE ++ (goBool b2 ++ ',' :: (litIEDO ++ (goBool b3 ++ ',' :: (litDSC ++ (intChars i3 ++ ['\x7d'])))))) = some (goBool b2 ++ ',' :: (litIEDO ++ (goBool b3 ++ ',' :: (litDSC ++ (intChars i3 ++ ['\x7d']))))) :=
    dropLit_self _ _
  have hs4 : splitAtChar ',' (goBool b2 ++ ',' :: (litIEDO ++ (goBool b3 ++ ',' :: (litDSC ++ (intChars i3 ++ ['\x7d']))))) =
      some (goBool b2, litIEDO ++ (goBool b3 ++ ',' :: (litDSC ++ (intChars i3 ++ ['\x7d'])))) :=
    splitAtChar_append _ _ _ (comma_not_mem_goBool b2)
  have hd4 : dropLit litIEDO (litIEDO ++ (goBool b3 ++ ',' :: (litDSC ++ (intChars i3 ++ ['\x7d'])))) = some (goBool b3 ++ ',' :: (litDSC ++ (intChars i3 ++ ['\x7d']))) :=
    dropLit_self _ _
  have hs5 : splitAtChar ',' (goBool b3 ++ ',' :: (litDSC ++ (intChars i3 ++ ['\x7d']))) =
      some (goBool b3, litDSC ++ (intChars i3 ++ ['\x7d'])) :=
    splitAtChar_append _ _ _ (comma_not_mem_goBool b3)
  have hd5 : dropLit litDSC (litDSC ++ (intChars i3 ++ ['\x7d'])) = some (intChars i3 ++ ['\x7d']) :=
    dropLit_self _ _
  rw [e0, parseModuleEnclosure, dropLit_self]
  simp only [someBindEq, hs1, parseGoBool_goBool, hd1, hs2, goAtoi_intChars,
    hd2, hs3, hd3, hs4, hd4, hs5, hd5, parseIntEnd_intChars]
  rfl

/-- The modelled emergency-stop body parser inverts its encoder. -/
theorem parseEmergencyStop_marshal (m : ModuleEmergencyStop) :
    parseModuleEmergencyStop ('\x7b' :: (m.marshalJSON ++ ['\x7d'])) =
      some m := by
  simp [parseModuleEmergencyStop, ModuleEmergencyStop.marshalJSON,
    List.append_assoc, dropLit_cons_self, dropLit_self, parseBoolEnd_goBool]

/-- The modelled quick-swap body parser inverts its encoder. -/
theorem parseQuickSwap_marshal (m : ModuleQuickSwap) :
    parseModuleQuickSwap ('\x7b' :: (m.marshalJSON ++ ['\x7d'])) = some m := by
  simp [parseModuleQuickSwap, ModuleQuickSwap.marshalJSON, List.append_assoc,
    dropLit_cons_self, dropLit_self, splitAtChar_append,
    comma_not_mem_intChars, goAtoi_intChars, parseIntEnd_intChars]

/-- The modelled bracing-kit body parser inverts its encoder. -/
theorem parseBracingKit_marshal (m : ModuleBracingKit) :
    parseModuleBracingKit ('\x7b' :: (m.marshalJSON ++ ['\x7d'])) = some m := by
  simp [parseModuleBracingKit, ModuleBracingKit.marshalJSON,
    List.append_assoc, dropLit_cons_self, dropLit_self, parseIntEnd_intChars]

/-- The modelled CNC body parser inverts its encoder. -/
theorem parseCNC_marshal (m : ModuleCNC) :
    parseModuleCNC ('\x7b' :: (m.marshalJSON ++ ['\x7d'])) = some m := by
  simp [parseModuleCNC, ModuleCNC.marshalJSON, List.append_assoc,
    dropLit_cons_self, dropLit_self, parseIntEnd_intChars]

/-- All characters an encoded enclosure value can contain. -/
def encValSet : List Char :=
  ("\x7b\x7d\":,truefalse-0123456789isReadyledfanisDoorEnabledisEnclosureDoorOpendoorSwitchCount").data

/-- All characters an encoded emergency-stop value can contain. -/
def esValSet : List Char :=
  ("\x7b\x7d\":,truefalse-0123456789isEmergencyStopped").data

/-- All characters an encoded quick-swap value can contain. -/
def qsValSet : List Char :=
  ("\x7b\x7d\":,-0123456789quickSwapStatequickSwapType").data

/-- All characters an encoded bracing-kit value can contain. -/
def bkValSet : List Char :=
  ("\x7b\x7d\":,-0123456789bracingKitState").data

/-- All characters an encoded CNC value can contain. -/
def cncValSet : List Char :=
  ("\x7b\x7d\":,-0123456789spindleSpeed").data

/-- Character superset of the encoded enclosure body. -/
theorem chars_marshalEnclosure (m : ModuleEnclosure) :
    ∀ x ∈ m.marshalJSON, x ∈ encValSet := by
  simp only [ModuleEnclosure.marshalJSON, List.forall_mem_append]
  repeat' apply And.intro
  all_goals first
    | decide
    | (intro x hx
       exact (by decide : ∀ y ∈ "truefalse".data, y ∈ encValSet) x
         (mem_goBool hx))
    | (intro x hx
       exact (by decide : ∀ y ∈ "-0123456789".data, y ∈ encValSet) x
         (mem_intChars hx))

/-- Character superset of an encoded enclosure value. -/
theorem mem_val_enclosure (m : ModuleEnclosure) :
    ∀ x ∈ '\x7b' :: (m.marshalJSON ++ ['\x7d']), x ∈ encValSet := by
  intro x hx
  rcases List.mem_cons.mp hx with rfl | hx
  · decide
  rcases List.mem_append.mp hx with hx | hx
  · exact chars_marshalEnclosure m x hx
  · rcases List.mem_singleton.mp hx with rfl
    decide

/-- Character superset of the encoded emergencyStop body. -/
theorem chars_marshalEmergencyStop (m : ModuleEmergencyStop) :
    ∀ x ∈ m.marshalJSON, x ∈ esValSet := by
  simp only [ModuleEmergencyStop.marshalJSON, List.forall_mem_append]
  repeat' apply And.intro
  all_goals first
    | decide
    | (intro x hx
       exact (by decide : ∀ y ∈ "truefalse".data, y ∈ esValSet) x
         (mem_goBool hx))

/-- Character superset of an encoded emergencyStop value. -/
theorem mem_val_emergencyStop (m : ModuleEmergencyStop) :
    ∀ x ∈ '\x7b' :: (m.marshalJSON ++ ['\x7d']), x ∈ esValSet := by
  intro x hx
  rcases List.mem_cons.mp hx with rfl | hx
  · decide
  rcases List.mem_append.mp hx with hx | hx
  · exact chars_marshalEmergencyStop m x hx
  · rcases List.mem_singleton.mp hx with rfl
    decide

/-- Character superset of the encoded quickSwap body. -/
theorem chars_marshalQuickSwap (m : ModuleQuickSwap) :
    ∀ x ∈ m.marshalJSON, x ∈ qsValSet := by
  simp only [ModuleQuickSwap.marshalJSON, List.forall_mem_append]
  repeat' apply And.intro
  all_goals first
    | decide
    | (intro x hx
       exact (by decide : ∀ y ∈ "-0123456789".data, y ∈ qsValSet) x
         (mem_intChars hx))

/-- Character superset of an encoded quickSwap value. -/
theorem mem_val_quickSwap (m : ModuleQuickSwap) :
    ∀ x ∈ '\x7b' :: (m.marshalJSON ++ ['\x7d']), x ∈ qsValSet := by
  intro x hx
  rcases List.mem_cons.mp hx with rfl | hx
  · decide
  rcases List.mem_append.mp hx with hx | hx
  · exact chars_marshalQuickSwap m x hx
  · rcases List.mem_singleton.mp hx with rfl
    decide

/-- Character superset of the encoded bracingKit body. -/
theorem chars_marshalBracingKit (m : ModuleBracingKit) :
    ∀ x ∈ m.marshalJSON, x ∈ bkValSet := by
  simp only [ModuleBracingKit.marshalJSON, List.forall_mem_append]
  repeat' apply And.intro
  all_goals first
    | decide
    | (intro x hx
       exact (by decide : ∀ y ∈ "-0123456789".data, y ∈ bkValSet) x
         (mem_intChars hx))

/-- Character superset of an encoded bracingKit value. -/
theorem mem_val_bracingKit (m : ModuleBracingKit) :
    ∀ x ∈ '\x7b' :: (m.marshalJSON ++ ['\x7d']), x ∈ bkValSet := by
  intro x hx
  rcases List.mem_cons.mp hx with rfl | hx
  · decide
  rcases List.mem_append.mp hx with hx | hx
  · exact chars_marshalBracingKit m x hx
  · rcases List.mem_singleton.mp hx with rfl
    decide

/-- Character superset of the encoded cnc body. -/
theorem chars_marshalCNC (m : ModuleCNC) :
    ∀ x ∈ m.marshalJSON, x ∈ cncValSet := by
  simp only [ModuleCNC.marshalJSON, List.forall_mem_append]
  repeat' apply And.intro
  all_goals first
    | decide
    | (intro x hx
       exact (by decide : ∀ y ∈ "-0123456789".data, y ∈ cncValSet) x
         (mem_intChars hx))

/-- Character superset of an encoded cnc value. -/
theorem mem_val_cnc (m : ModuleCNC) :
    ∀ x ∈ '\x7b' :: (m.marshalJSON ++ ['\x7d']), x ∈ cncValSet := by
  intro x hx
  rcases List.mem_cons.mp hx with rfl | hx
  · decide
  rcases List.mem_append.mp hx with hx | hx
  · exact chars_marshalCNC m x hx
  · rcases List.mem_singleton.mp hx with rfl
    decide

/-- An encoded enclosure value never matches the laser signature (it cannot
contain the capital P). -/
theorem enc_no_LP (m : ModuleEnclosure) :
    containsSub litLP ('\x7b' :: (m.marshalJSON ++ ['\x7d'])) = false :=
  containsSub_eq_false (c := 'P') (by decide)
    (fun hmem => absurd (mem_val_enclosure m 'P' hmem) (by decide))

/-- An encoded emergency-stop value never matches the laser signature. -/
theorem es_no_LP (m : ModuleEmergencyStop) :
    containsSub litLP ('\x7b' :: (m.marshalJSON ++ ['\x7d'])) = false :=
  containsSub_eq_false (c := 'w') (by decide)
    (fun hmem => absurd (mem_val_emergencyStop m 'w' hmem) (by decide))

/-- An encoded emergency-stop value never matches the enclosure signature. -/
theorem es_no_IEDO (m : ModuleEmergencyStop) :
    containsSub litIEDO ('\x7b' :: (m.marshalJSON ++ ['\x7d'])) = false :=
  containsSub_eq_false (c := 'D') (by decide)
    (fun hmem => absurd (mem_val_emergencyStop m 'D' hmem) (by decide))

/-- An encoded quick-swap value never matches the laser signature. -/
theorem qs_no_LP (m : ModuleQuickSwap) :
    containsSub litLP ('\x7b' :: (m.marshalJSON ++ ['\x7d'])) = false :=
  containsSub_eq_false (c := 'l') (by decide)
    (fun hmem => absurd (mem_val_quickSwap m 'l' hmem) (by decide))

/-- An encoded quick-swap value never matches the enclosure signature. -/
theorem qs_no_IEDO (m : ModuleQuickSwap) :
    containsSub litIEDO ('\x7b' :: (m.marshalJSON ++ ['\x7d'])) = false :=
  containsSub_eq_false (c := 'l') (by decide)
    (fun hmem => absurd (mem_val_quickSwap m 'l' hmem) (by decide))

/-- An encoded quick-swap value never matches the emergency-stop signature. -/
theorem qs_no_IES (m : ModuleQuickSwap) :
    containsSub litIES ('\x7b' :: (m.marshalJSON ++ ['\x7d'])) = false :=
  containsSub_eq_false (c := 'm') (by decide)
    (fun hmem => absurd (mem_val_quickSwap m 'm' hmem) (by decide))

/-- An encoded bracing-kit value never matches the laser signature. -/
theorem bk_no_LP (m : ModuleBracingKit) :
    containsSub litLP ('\x7b' :: (m.marshalJSON ++ ['\x7d'])) = false :=
  containsSub_eq_false (c := 'l') (by decide)
    (fun hmem => absurd (mem_val_bracingKit m 'l' hmem) (by decide))

/-- An encoded bracing-kit value never matches the enclosure signature. -/
theorem bk_no_IEDO (m : ModuleBracingKit) :
    containsSub litIEDO ('\x7b' :: (m.marshalJSON ++ ['\x7d'])) = false :=
  containsSub_eq_false (c := 'l') (by decide)
    (fun hmem => absurd (mem_val_bracingKit m 'l' hmem) (by decide))

/-- An encoded bracing-kit value never matches the emergency-stop
signature. -/
theorem bk_no_IES (m : ModuleBracingKit) :
    containsSub litIES ('\x7b' :: (m.marshalJSON ++ ['\x7d'])) = false :=
  containsSub_eq_false (c := 'm') (by decide)
    (fun hmem => absurd (mem_val_bracingKit m 'm' hmem) (by decide))

/-- An encoded bracing-kit value never matches the quick-swap signature. -/
theorem bk_no_QSS (m : ModuleBracingKit) :
    containsSub litQSS ('\x7b' :: (m.marshalJSON ++ ['\x7d'])) = false :=
  containsSub_eq_false (c := 'q') (by decide)
    (fun hmem => absurd (mem_val_bracingKit m 'q' hmem) (by decide))

/-- An encoded CNC value never matches the laser signature. -/
theorem cnc_no_LP (m : ModuleCNC) :
    containsSub litLP ('\x7b' :: (m.marshalJSON ++ ['\x7d'])) = false :=
  containsSub_eq_false (c := 'a') (by decide)
    (fun hmem => absurd (mem_val_cnc m 'a' hmem) (by decide))

/-- An encoded CNC value never matches the enclosure signature. -/
theorem cnc_no_IEDO (m : ModuleCNC) :
    containsSub litIEDO ('\x7b' :: (m.marshalJSON ++ ['\x7d'])) = false :=
  containsSub_eq_false (c := 'c') (by decide)
    (fun hmem => absurd (mem_val_cnc m 'c' hmem) (by decide))

/-- An encoded CNC value never matches the emergency-stop signature. -/
theorem cnc_no_IES (m : ModuleCNC) :
    containsSub litIES ('\x7b' :: (m.marshalJSON ++ ['\x7d'])) = false :=
  containsSub_eq_false (c := 'm') (by decide)
    (fun hmem => absurd (mem_val_cnc m 'm' hmem) (by decide))

/-- An encoded CNC value never matches the quick-swap signature. -/
theorem cnc_no_QSS (m : ModuleCNC) :
    containsSub litQSS ('\x7b' :: (m.marshalJSON ++ ['\x7d'])) = false :=
  containsSub_eq_false (c := 'q') (by decide)
    (fun hmem => absurd (mem_val_cnc m 'q' hmem) (by decide))

/-- An encoded CNC value never matches the bracing-kit signature. -/
theorem cnc_no_BKS (m : ModuleCNC) :
    containsSub litBKS ('\x7b' :: (m.marshalJSON ++ ['\x7d'])) = false :=
  containsSub_eq_false (c := 'b') (by decide)
    (fun hmem => absurd (mem_val_cnc m 'b' hmem) (by decide))

/-- Decoding the encoder output of a laser record recovers it. -/
theorem rt_laser {F : Type} (fmtF : F → List Char)
    (parseF : List Char → Option F) (hF : FloatCodecOK fmtF parseF)
    (k : Int) (hk : 0 ≤ k) (m : ModuleLaser F) :
    ModuleDetail.unmarshalJSON parseF
      (litKey ++ intChars k ++ [','] ++ m.marshalJSON fmtF ++ ['\x7d']) =
      .ok ⟨k, .laser m⟩ := by
  have hpos : containsSub litLP
      ('\x7b' :: (m.marshalJSON fmtF ++ ['\x7d'])) = true := by
    have hsh : '\x7b' :: (m.marshalJSON fmtF ++ ['\x7d']) =
        ('\x7b' :: (litLFL ++ fmtF m.laserFocalLength ++ [','])) ++
          (litLP ++ (fmtF m.laserPower ++ [','] ++ litLC ++
            goBool m.laserCamera ++ ['\x7d'])) := by
      simp [ModuleLaser.marshalJSON, List.append_assoc]
    rw [hsh]
    exact containsSub_mid _ _ _
  simp only [ModuleDetail.unmarshalJSON, extractKey_encoded k hk]
  rw [sniffAndParse, if_pos hpos, parseLaser_marshal fmtF parseF hF m]

/-- Decoding the encoder output of an enclosure record recovers it. -/
theorem rt_enclosure {F : Type} (parseF : List Char → Option F)
    (k : Int) (hk : 0 ≤ k) (m : ModuleEnclosure) :
    ModuleDetail.unmarshalJSON parseF
      (litKey ++ intChars k ++ [','] ++ m.marshalJSON ++ ['\x7d']) =
      (.ok ⟨k, .enclosure m⟩ : Except SnapErr (ModuleDetail F)) := by
  have hpos : containsSub litIEDO
      ('\x7b' :: (m.marshalJSON ++ ['\x7d'])) = true := by
    have hsh : '\x7b' :: (m.marshalJSON ++ ['\x7d']) =
        ('\x7b' :: (litIR ++ goBool m.isReady ++ [','] ++ litLED ++
          intChars m.led ++ [','] ++ litFan ++ intChars m.fan ++ [','] ++
          litIDE ++ goBool m.isDoorEnabled ++ [','])) ++
          (litIEDO ++ (goBool m.isEnclosureDoorOpen ++ [','] ++ litDSC ++
            intChars m.doorSwitchCount ++ ['\x7d'])) := by
      simp [ModuleEnclosure.marshalJSON, List.append_assoc]
    rw [hsh]
    exact containsSub_mid _ _ _
  simp only [ModuleDetail.unmarshalJSON, extractKey_encoded k hk]
  rw [sniffAndParse, if_neg (by simp [enc_no_LP m]), if_pos hpos,
    parseEnclosure_marshal m]

/-- Decoding the encoder output of an emergency-stop record recovers it. -/
theorem rt_emergencyStop {F : Type} (parseF : List Char → Option F)
    (k : Int) (hk : 0 ≤ k) (m : ModuleEmergencyStop) :
    ModuleDetail.unmarshalJSON parseF
      (litKey ++ intChars k ++ [','] ++ m.marshalJSON ++ ['\x7d']) =
      (.ok ⟨k, .emergencyStop m⟩ : Except SnapErr (ModuleDetail F)) := by
  have hpos : containsSub litIES
      ('\x7b' :: (m.marshalJSON ++ ['\x7d'])) = true := by
    have hsh : '\x7b' :: (m.marshalJSON ++ ['\x7d']) =
        ['\x7b'] ++ (litIES ++ (goBool m.isEmergencyStopped ++ ['\x7d'])) := by
      simp [ModuleEmergencyStop.marshalJSON, List.append_assoc]
    rw [hsh]
    exact containsSub_mid _ _ _
  simp only [ModuleDetail.unmarshalJSON, extractKey_encoded k hk]
  rw [sniffAndParse, if_neg (by simp [es_no_LP m]),
    if_neg (by simp [es_no_IEDO m]), if_pos hpos,
    parseEmergencyStop_marshal m]

/-- Decoding the encoder output of a quick-swap record recovers it. -/
theorem rt_quickSwap {F : Type} (parseF : List Char → Option F)
    (k : Int) (hk : 0 ≤ k) (m : ModuleQuickSwap) :
    ModuleDetail.unmarshalJSON parseF
      (litKey ++ intChars k ++ [','] ++ m.marshalJSON ++ ['\x7d']) =
      (.ok ⟨k, .quickSwap m⟩ : Except SnapErr (ModuleDetail F)) := by
  have hpos : containsSub litQSS
      ('\x7b' :: (m.marshalJSON ++ ['\x7d'])) = true := by
    have hsh : '\x7b' :: (m.marshalJSON ++ ['\x7d']) =
        ['\x7b'] ++ (litQSS ++ (intChars m.quickSwapState ++ [','] ++
          litQST ++ intChars m.quickSwapType ++ ['\x7d'])) := by
      simp [ModuleQuickSwap.marshalJSON, List.append_assoc]
    rw [hsh]
    exact containsSub_mid _ _ _
  simp only [ModuleDetail.unmarshalJSON, extractKey_encoded k hk]
  rw [sniffAndParse, if_neg (by simp [qs_no_LP m]),
    if_neg (by simp [qs_no_IEDO m]), if_neg (by simp [qs_no_IES m]),
    if_pos hpos, parseQuickSwap_marshal m]

/-- Decoding the encoder output of a bracing-kit record recovers it. -/
theorem rt_bracingKit {F : Type} (parseF : List Char → Option F)
    (k : Int) (hk : 0 ≤ k) (m : ModuleBracingKit) :
    ModuleDetail.unmarshalJSON parseF
      (litKey ++ intChars k ++ [','] ++ m.marshalJSON ++ ['\x7d']) =
      (.ok ⟨k, .bracingKit m⟩ : Except SnapErr (ModuleDetail F)) := by
  have hpos : containsSub litBKS
      ('\x7b' :: (m.marshalJSON ++ ['\x7d'])) = true := by
    have hsh : '\x7b' :: (m.marshalJSON ++ ['\x7d']) =
        ['\x7b'] ++ (litBKS ++ (intChars m.bracingKitState ++ ['\x7d'])) := by
      simp [ModuleBracingKit.marshalJSON, List.append_assoc]
    rw [hsh]
    exact containsSub_mid _ _ _
  simp only [ModuleDetail.unmarshalJSON, extractKey_encoded k hk]
  rw [sniffAndParse, if_neg (by simp [bk_no_LP m]),
    if_neg (by simp [bk_no_IEDO m]), if_neg (by simp [bk_no_IES m]),
    if_neg (by simp [bk_no_QSS m]), if_pos hpos, parseBracingKit_marshal m]

/-- Decoding the encoder output of a CNC record recovers it. -/
theorem rt_cnc {F : Type} (parseF : List Char → Option F)
    (k : Int) (hk : 0 ≤ k) (m : ModuleCNC) :
    ModuleDetail.unmarshalJSON parseF
      (litKey ++ intChars k ++ [','] ++ m.marshalJSON ++ ['\x7d']) =
      (.ok ⟨k, .cnc m⟩ : Except SnapErr (ModuleDetail F)) := by
  have hpos : containsSub litSS
      ('\x7b' :: (m.marshalJSON ++ ['\x7d'])) = true := by
    have hsh : '\x7b' :: (m.marshalJSON ++ ['\x7d']) =
        ['\x7b'] ++ (litSS ++ (intChars m.spindleSpeed ++ ['\x7d'])) := by
      simp [ModuleCNC.marshalJSON, List.append_assoc]
    rw [hsh]
    exact containsSub_mid _ _ _
  simp only [ModuleDetail.unmarshalJSON, extractKey_encoded k hk]
  rw [sniffAndParse, if_neg (by simp [cnc_no_LP m]),
    if_neg (by simp [cnc_no_IEDO m]), if_neg (by simp [cnc_no_IES m]),
    if_neg (by simp [cnc_no_QSS m]), if_neg (by simp [cnc_no_BKS m]),
    if_pos hpos, parseCNC_marshal m]

/-- C3: round-trip of the module variant codec.  For every ModuleDetail
whose payload is one of the six recognized variants with a non-negative key,
decoding (UnmarshalJSON) the bytes produced by encoding (MarshalJSON)
reproduces the original record exactly, including the key and every variant
field.  Quantified over any float codec satisfying the Go strconv
round-trip contract. -/
theorem C3_module_codec_round_trip {F : Type} (fmtF : F → List Char)
    (parseF : List Char → Option F) (hF : FloatCodecOK fmtF parseF)
    (d : ModuleDetail F) (hk : 0 ≤ d.Key) (hm : d.Module ≠ .unknown) :
    ∃ enc, d.marshalJSON fmtF = some enc ∧
      ModuleDetail.unmarshalJSON parseF enc = .ok d := by
  obtain ⟨k, v⟩ := d
  cases v with
  | laser m =>
    exact ⟨litKey ++ intChars k ++ [','] ++ m.marshalJSON fmtF ++ ['\x7d'],
      rfl, rt_laser fmtF parseF hF k hk m⟩
  | enclosure m =>
    exact ⟨litKey ++ intChars k ++ [','] ++ m.marshalJSON ++ ['\x7d'],
      rfl, rt_enclosure parseF k hk m⟩
  | emergencyStop m =>
    exact ⟨litKey ++ intChars k ++ [','] ++ m.marshalJSON ++ ['\x7d'],
      rfl, rt_emergencyStop parseF k hk m⟩
  | quickSwap m =>
    exact ⟨litKey ++ intChars k ++ [','] ++ m.marshalJSON ++ ['\x7d'],
      rfl, rt_quickSwap parseF k hk m⟩
  | bracingKit m =>
    exact ⟨litKey ++ intChars k ++ [','] ++ m.marshalJSON ++ ['\x7d'],
      rfl, rt_bracingKit parseF k hk m⟩
  | cnc m =>
    exact ⟨litKey ++ intChars k ++ [','] ++ m.marshalJSON ++ ['\x7d'],
      rfl, rt_cnc parseF k hk m⟩
  | unknown => exact absurd rfl hm

/-- C3 witness: the round-trip theorem applied to a concrete laser record
with key 1, over the concrete two-value float codec. -/
theorem C3_module_codec_round_trip_witness :
    FloatCodecOK bitFmt bitParse ∧
      (0 : Int) ≤ (1 : Int) ∧
      (⟨1, .laser ⟨true, false, true⟩⟩ : ModuleDetail Bool).Module ≠
        .unknown ∧
      ∃ enc,
        ModuleDetail.marshalJSON bitFmt
          (⟨1, .laser ⟨true, false, true⟩⟩ : ModuleDetail Bool) = some enc ∧
        ModuleDetail.unmarshalJSON bitParse enc =
          .ok ⟨1, .laser ⟨true, false, true⟩⟩ :=
  ⟨⟨by decide, by decide⟩, by decide, by decide,
    C3_module_codec_round_trip bitFmt bitParse ⟨by decide, by decide⟩
      (⟨1, .laser ⟨true, false, true⟩⟩ : ModuleDetail Bool) (by decide)
      (by decide)⟩

/-- An unknown-shape record with a well-formed non-negative key decodes
without error, keeping the key and the unknown payload. -/
theorem unknownRec_decodes {F : Type} (parseF : List Char → Option F)
    (b : List Char) (h : isUnknownRec b = true) :
    ∃ k val, extractKey b = .ok (k, val) ∧
      ModuleDetail.unmarshalJSON parseF b = .ok ⟨k, .unknown⟩ := by
  unfold isUnknownRec at h
  cases he : extractKey b with
  | error e =>
    rw [he] at h
    simp at h
  | ok kv =>
    obtain ⟨k, val⟩ := kv
    rw [he] at h
    have hs : sniffAny val = false := by simpa using h
    have hor : ∀ (x y : Bool), (x || y) = false → x = false ∧ y = false := by
      decide
    unfold sniffAny at hs
    obtain ⟨h12345, h6⟩ := hor _ _ hs
    obtain ⟨h1234, h5⟩ := hor _ _ h12345
    obtain ⟨h123, h4⟩ := hor _ _ h1234
    obtain ⟨h12, h3⟩ := hor _ _ h123
    obtain ⟨h1, h2⟩ := hor _ _ h12
    refine ⟨k, val, rfl, ?_⟩
    simp only [ModuleDetail.unmarshalJSON, he]
    rw [sniffAndParse, if_neg (by simp [h1]), if_neg (by simp [h2]),
      if_neg (by simp [h3]), if_neg (by simp [h4]), if_neg (by simp [h5]),
      if_neg (by simp [h6])]

/-- A listing whose records each decode successfully decodes as a whole,
entry for entry. -/
theorem decodeListing_ok {F : Type} (parseF : List Char → Option F) :
    ∀ rs : List (List Char),
    (∀ b ∈ rs, ∃ d, ModuleDetail.unmarshalJSON parseF b = .ok d ∧
      (isUnknownRec b = true → d.Module = .unknown)) →
    ∃ l, decodeListing parseF rs = .ok l ∧ l.length = rs.length ∧
      List.Forall₂ (fun b d => isUnknownRec b = true →
        ModuleDetail.Module d = ModuleVariant.unknown) rs l
  | [], _ => ⟨[], rfl, rfl, List.Forall₂.nil⟩
  | b :: rest, h => by
    obtain ⟨d, hd, himp⟩ := h b (List.mem_cons_self _ _)
    obtain ⟨l, hl, hlen, hfa⟩ :=
      decodeListing_ok parseF rest (fun x hx => h x (List.mem_cons_of_mem _ hx))
    refine ⟨d :: l, ?_, by simp [hlen], List.Forall₂.cons himp hfa⟩
    simp [decodeListing, hd, hl]

/-- C4: unknown-shape tolerance.  In a module listing in which every record
either has a well-formed non-negative key with a shape matching none of the
six structural signatures, or otherwise decodes successfully, each
unknown-shape record is kept (with its key and an unknown payload) rather
than erroring, and the overall listing decode returns one entry per input
record instead of aborting. -/
theorem C4_unknown_shape_tolerance {F : Type} (parseF : List Char → Option F)
    (rs : List (List Char))
    (h : ∀ b ∈ rs, isUnknownRec b = true ∨
      ∃ d, ModuleDetail.unmarshalJSON parseF b = .ok d) :
    (∀ b ∈ rs, isUnknownRec b = true →
      ∃ k, ModuleDetail.unmarshalJSON parseF b = .ok ⟨k, .unknown⟩) ∧
    ∃ l, decodeListing parseF rs = .ok l ∧ l.length = rs.length ∧
      List.Forall₂ (fun b d => isUnknownRec b = true →
        ModuleDetail.Module d = ModuleVariant.unknown) rs l := by
  constructor
  · intro b _ hu
    obtain ⟨k, val, _, hdec⟩ := unknownRec_decodes parseF b hu
    exact ⟨k, hdec⟩
  · apply decodeListing_ok
    intro b hb
    obtain hb' | ⟨d, hd⟩ := h b hb
    · obtain ⟨k, val, _, hdec⟩ := unknownRec_decodes parseF b hb'
      exact ⟨⟨k, .unknown⟩, hdec, fun _ => rfl⟩
    · refine ⟨d, hd, fun hu => ?_⟩
      obtain ⟨k, val, _, hdec⟩ := unknownRec_decodes parseF b hu
      rw [hd] at hdec
      injection hdec with h'
      rw [h']

/-- C4 witness: a two-record listing (one future-shaped record with key 3,
one recognized laser record with key 1) decodes entry for entry, the
unknown record kept with an unknown payload. -/
theorem C4_unknown_shape_tolerance_witness :
    (∀ b ∈ [("\x7b\"key\":3,\"futureField\":9\x7d").data,
        ("\x7b\"key\":1,\"laserFocalLength\":1,\"laserPower\":0,\"laserCamera\":true\x7d").data],
      isUnknownRec b = true ∨
        ∃ d, ModuleDetail.unmarshalJSON bitParse b = .ok d) ∧
    ((∀ b ∈ [("\x7b\"key\":3,\"futureField\":9\x7d").data,
        ("\x7b\"key\":1,\"laserFocalLength\":1,\"laserPower\":0,\"laserCamera\":true\x7d").data],
      isUnknownRec b = true →
        ∃ k, ModuleDetail.unmarshalJSON bitParse b = .ok ⟨k, .unknown⟩) ∧
    ∃ l, decodeListing bitParse
        [("\x7b\"key\":3,\"futureField\":9\x7d").data,
          ("\x7b\"key\":1,\"laserFocalLength\":1,\"laserPower\":0,\"laserCamera\":true\x7d").data] =
        .ok l ∧
      l.length = 2 ∧
      List.Forall₂ (fun b d => isUnknownRec b = true →
        ModuleDetail.Module d = ModuleVariant.unknown)
        [("\x7b\"key\":3,\"futureField\":9\x7d").data,
          ("\x7b\"key\":1,\"laserFocalLength\":1,\"laserPower\":0,\"laserCamera\":true\x7d").data] l) := by
  have hh : ∀ b ∈ [("\x7b\"key\":3,\"futureField\":9\x7d").data,
      ("\x7b\"key\":1,\"laserFocalLength\":1,\"laserPower\":0,\"laserCamera\":true\x7d").data],
      isUnknownRec b = true ∨
        ∃ d, ModuleDetail.unmarshalJSON bitParse b = .ok d := by
    intro b hb
    rcases List.mem_cons.mp hb with rfl | hb
    · left
      decide
    rcases List.mem_singleton.mp hb with rfl
    right
    exact ⟨⟨1, .laser ⟨true, false, true⟩⟩, by decide⟩
  exact ⟨hh, C4_unknown_shape_tolerance bitParse _ hh⟩

/-- Inductive invariant of the motion gate: never more than one holder, and
no holder at all while the moving flag is clear. -/
theorem gate_inv {c0 : Conn} :
    ∀ s, GateReach c0 s →
      s.holders ≤ 1 ∧ (s.conn.moving = false → s.holders = 0) := by
  intro s hs
  induction hs with
  | base =>
    refine ⟨?_, fun _ => rfl⟩
    show (0 : Nat) ≤ 1
    omega
  | step hr hstep ih =>
    obtain ⟨ih1, ih2⟩ := ih
    rename_i t t'
    cases hstep with
    | acq c' h =>
      unfold acquireTry at h
      split at h
      · next hcond =>
        simp only [Prod.mk.injEq] at h
        have hmov : t.conn.moving = false := by
          simp only [Bool.and_eq_true, Bool.not_eq_true'] at hcond
          exact hcond.2
        have hz : t.holders = 0 := ih2 hmov
        refine ⟨?_, fun hmv' => ?_⟩
        · show t.holders + 1 ≤ 1
          omega
        · exfalso
          have hmv'' : c'.moving = false := hmv'
          rw [← h.1] at hmv''
          simp at hmv''
      · simp at h
    | spin c' ab h =>
      unfold acquireTry at h
      split at h
      · simp at h
      · simp only [Prod.mk.injEq] at h
        refine ⟨ih1, fun hmv' => ?_⟩
        have hmv'' : c'.moving = false := hmv'
        rw [← h.1] at hmv''
        exact ih2 hmv''
    | rel h =>
      refine ⟨?_, fun _ => ?_⟩
      · show t.holders - 1 ≤ 1
        omega
      · show t.holders - 1 = 0
        omega

/-- C1: mutual exclusion of the motion gate.  Along every schedule of
waitToMove test-and-set attempts and holder releases from an idle session,
at most one caller ever holds the moving flag, and while one holds it no
further acquire attempt can succeed until a release clears the flag. -/
theorem C1_gate_mutual_exclusion (c0 : Conn) (_h0 : c0.moving = false)
    (s : GateSys) (hs : GateReach c0 s) :
    s.holders ≤ 1 ∧
      (0 < s.holders → ∀ c' : Conn, acquireTry s.conn ≠ (c', true, true)) := by
  obtain ⟨h1, h2⟩ := gate_inv s hs
  refine ⟨h1, fun hpos c' hacq => ?_⟩
  have hmov : s.conn.moving = false := by
    unfold acquireTry at hacq
    split at hacq
    · next hcond =>
      simp only [Bool.and_eq_true, Bool.not_eq_true'] at hcond
      exact hcond.2
    · simp at hacq
  have := h2 hmov
  omega

/-- C1 witness: after one successful acquire from the idle demo session the
reachable state has one holder, and a second acquire cannot succeed there. -/
theorem C1_gate_mutual_exclusion_witness :
    demoConn.moving = false ∧
      ((⟨{demoConn with moving := true}, 0 + 1⟩ : GateSys).holders ≤ 1 ∧
        (0 < (⟨{demoConn with moving := true}, 0 + 1⟩ : GateSys).holders →
          ∀ c' : Conn,
            acquireTry {demoConn with moving := true} ≠ (c', true, true))) :=
  ⟨rfl,
    C1_gate_mutual_exclusion demoConn rfl ⟨{demoConn with moving := true}, 0 + 1⟩
      (GateReach.step GateReach.base
        (GateStep.acq ⟨demoConn, 0⟩ {demoConn with moving := true}
          (by decide)))⟩

/-- C2: refresh error selection is priority-based, not first-to-fail.  On a
connected session: a failed enclosure query (issued only when the session
has an enclosure) determines the returned error regardless of the other two;
otherwise a module-query error wins; otherwise the tool-query error is
returned; and each query that succeeded updates its own snapshot regardless
of the other queries' outcomes. -/
theorem C2_status_error_priority (c : Conn) (hc : c.connected = true)
    (encR : Except SnapErr EnclosureResult) (modR : Except SnapErr ModResult)
    (toolR : Except SnapErr StatusResult) :
    (∀ e, c.hasEnclosure = true → encR = .error e →
      (c.Status encR modR toolR).2 = some e) ∧
    (∀ e, (c.hasEnclosure = false ∨ ∃ v, encR = .ok v) → modR = .error e →
      (c.Status encR modR toolR).2 = some e) ∧
    (∀ e, (c.hasEnclosure = false ∨ ∃ v, encR = .ok v) →
      (∃ v, modR = .ok v) → toolR = .error e →
      (c.Status encR modR toolR).2 = some e) ∧
    (∀ v, modR = .ok v → (c.Status encR modR toolR).1.modState = v) ∧
    (∀ v, toolR = .ok v → (c.Status encR modR toolR).1.toolState = v) ∧
    (∀ v, c.hasEnclosure = true → encR = .ok v →
      (c.Status encR modR toolR).1.encState = v) := by
  refine ⟨?_, ?_, ?_, ?_, ?_, ?_⟩
  · intro e henc herr
    subst herr
    simp [Conn.Status, hc, henc]
  · intro e hencok hmod
    subst hmod
    rcases hencok with hne | ⟨v, rfl⟩
    · simp [Conn.Status, hc, hne]
    · by_cases he : c.hasEnclosure = true <;> simp [Conn.Status, hc, he]
  · intro e hencok hmodok htool
    subst htool
    obtain ⟨vm, rfl⟩ := hmodok
    rcases hencok with hne | ⟨v, rfl⟩
    · simp [Conn.Status, hc, hne]
    · by_cases he : c.hasEnclosure = true <;> simp [Conn.Status, hc, he]
  · intro v hv
    subst hv
    rcases toolR with et | vt <;> rcases encR with ee | ve <;>
      by_cases he : c.hasEnclosure = true <;> simp [Conn.Status, hc, he]
  · intro v hv
    subst hv
    rcases modR with em | vm <;> rcases encR with ee | ve <;>
      by_cases he : c.hasEnclosure = true <;> simp [Conn.Status, hc, he]
  · intro v henc hv
    subst hv
    rcases modR with em | vm <;> rcases toolR with et | vt <;>
      simp [Conn.Status, hc, henc]

/-- C2 witness: the priority and update conjunction instantiated on the
concrete connected demo session with concrete query outcomes. -/
theorem C2_status_error_priority_witness :
    (∀ e, demoConn.hasEnclosure = true →
      (.error .netError : Except SnapErr EnclosureResult) = .error e →
      (demoConn.Status (.error .netError) (.ok emptyMod)
        (.ok emptyStatus)).2 = some e) ∧
    (∀ e, (demoConn.hasEnclosure = false ∨
        ∃ v, (.error .netError : Except SnapErr EnclosureResult) = .ok v) →
      (.ok emptyMod : Except SnapErr ModResult) = .error e →
      (demoConn.Status (.error .netError) (.ok emptyMod)
        (.ok emptyStatus)).2 = some e) ∧
    (∀ e, (demoConn.hasEnclosure = false ∨
        ∃ v, (.error .netError : Except SnapErr EnclosureResult) = .ok v) →
      (∃ v, (.ok emptyMod : Except SnapErr ModResult) = .ok v) →
      (.ok emptyStatus : Except SnapErr StatusResult) = .error e →
      (demoConn.Status (.error .netError) (.ok emptyMod)
        (.ok emptyStatus)).2 = some e) ∧
    (∀ v, (.ok emptyMod : Except SnapErr ModResult) = .ok v →
      (demoConn.Status (.error .netError) (.ok emptyMod)
        (.ok emptyStatus)).1.modState = v) ∧
    (∀ v, (.ok emptyStatus : Except SnapErr StatusResult) = .ok v →
      (demoConn.Status (.error .netError) (.ok emptyMod)
        (.ok emptyStatus)).1.toolState = v) ∧
    (∀ v, demoConn.hasEnclosure = true →
      (.error .netError : Except SnapErr EnclosureResult) = .ok v →
      (demoConn.Status (.error .netError) (.ok emptyMod)
        (.ok emptyStatus)).1.encState = v) :=
  C2_status_error_priority demoConn rfl (.error .netError) (.ok emptyMod)
    (.ok emptyStatus)

/-- C5 counterexample: on the connected, idle demo session an acquire whose
cancellation signal has already fired succeeds immediately — it returns no
error and sets the moving flag — contradicting the claim that it returns
CanceledError and leaves the flag unchanged for every session state. -/
theorem C5_canceled_acquire_counterexample :
    waitToMove 1 demoConn true = some (none, {demoConn with moving := true}) ∧
      some (none, {demoConn with moving := true}) ≠
        some (some SnapErr.canceled, demoConn) ∧
      ({demoConn with moving := true}).moving ≠ demoConn.moving :=
  ⟨by decide, by decide, by decide⟩

/-- C5 (amended): with an already-fired cancellation signal, waitToMove
returns CanceledError immediately and leaves the moving flag unchanged
exactly when the session is connected and already moving; a disconnected
session yields NotConnectedError instead, and a connected idle session
acquires successfully (returning nil and setting the flag) despite the
fired signal. -/
theorem C5_canceled_acquire (c : Conn) (fuel : Nat) (hf : 0 < fuel) :
    (c.connected = true → c.moving = true →
      waitToMove fuel c true = some (some .canceled, c)) ∧
    (c.connected = false →
      waitToMove fuel c true = some (some .notConnected, c)) ∧
    (c.connected = true → c.moving = false →
      waitToMove fuel c true = some (none, {c with moving := true})) := by
  obtain ⟨n, rfl⟩ : ∃ n, fuel = n + 1 := ⟨fuel - 1, by omega⟩
  refine ⟨fun hc hm => ?_, fun hc => ?_, fun hc hm => ?_⟩
  · simp [waitToMove, acquireTry, hc, hm]
  · simp [waitToMove, acquireTry, hc]
  · simp [waitToMove, acquireTry, hc, hm]

/-- C5 witness: the amended statement applied to the busy demo session with
one unit of fuel. -/
theorem C5_canceled_acquire_witness :
    (0 : Nat) < 1 ∧
      ((({demoConn with moving := true}).connected = true →
        ({demoConn with moving := true}).moving = true →
        waitToMove 1 {demoConn with moving := true} true =
          some (some .canceled, {demoConn with moving := true})) ∧
      (({demoConn with moving := true}).connected = false →
        waitToMove 1 {demoConn with moving := true} true =
          some (some .notConnected, {demoConn with moving := true})) ∧
      (({demoConn with moving := true}).connected = true →
        ({demoConn with moving := true}).moving = false →
        waitToMove 1 {demoConn with moving := true} true =
          some (none, {{demoConn with moving := true} with moving := true}))) :=
  ⟨by decide, C5_canceled_acquire {demoConn with moving := true} 1 (by decide)⟩

/-- C6: a handshake response whose echoed token differs from the request
token makes NewConn fail with InvalidTokenError and return no Conn. -/
theorem C6_token_mismatch (ip tok : String) (res : ConnectionResult)
    (boot : Option SnapErr) (h : res.Token ≠ tok) :
    NewConn ip tok (.ok res) boot = (none, some .invalidToken) := by
  simp [NewConn, h]

/-- C6 witness: a concrete handshake echoing the wrong token. -/
theorem C6_token_mismatch_witness :
    ("other" : String) ≠ "tok" ∧
      NewConn "10.0.0.2" "tok"
        (.ok ⟨"other", false, "Snapmaker 2.0 A350", 2, true⟩) none =
        (none, some .invalidToken) :=
  ⟨by decide,
    C6_token_mismatch "10.0.0.2" "tok"
      ⟨"other", false, "Snapmaker 2.0 A350", 2, true⟩ none (by decide)⟩

/-- C7 counterexample: Close does not signal the background poller to stop.
On the concrete demo session, Close flips connected to false, the poller's
next refresh then fails with NotConnectedError, and the polling loop ends in
a whole-process fatal exit — not in the clean context-cancellation exit the
claim's "signals the poller to stop so the task terminates" describes. -/
theorem C7_close_counterexample :
    (Conn.Close demoConn (.status 200)).1.connected = false ∧
      (Conn.Close demoConn (.status 200)).2 = none ∧
      (Conn.Status (Conn.Close demoConn (.status 200)).1 (.ok emptyEnc)
        (.ok emptyMod) (.ok emptyStatus)).2 = some .notConnected ∧
      pollLoopAux [(Conn.Status (Conn.Close demoConn (.status 200)).1
        (.ok emptyEnc) (.ok emptyMod) (.ok emptyStatus)).2] =
        .fatalProcessExit .notConnected ∧
      PollEnd.fatalProcessExit .notConnected ≠ .ctxCanceled :=
  ⟨by decide, by decide, by decide, by decide, by decide⟩

/-- C7 (amended): Close on an already-disconnected session fails with
NotConnectedError; on a connected session a successful disconnect call flips
connected to false; Close signals nothing to the background poller — a
subsequent refresh of the closed session fails with NotConnectedError, and
the polling loop reaching any failed refresh terminates the entire process
instead of exiting cleanly. -/
theorem C7_close (c : Conn) (disc : HttpOutcome)
    (encR : Except SnapErr EnclosureResult) (modR : Except SnapErr ModResult)
    (toolR : Except SnapErr StatusResult) (rest : List (Option SnapErr))
    (e : SnapErr) :
    (c.connected = false → c.Close disc = (c, some .notConnected)) ∧
    (c.connected = true →
      c.Close (.status 200) = ({c with connected := false}, none)) ∧
    (Conn.Status {c with connected := false} encR modR toolR).2 =
      some .notConnected ∧
    pollLoopAux (some e :: rest) = .fatalProcessExit e ∧
    PollEnd.fatalProcessExit e ≠ .ctxCanceled := by
  refine ⟨fun hc => ?_, fun hc => ?_, ?_, rfl, by simp⟩
  · simp [Conn.Close, hc]
  · simp [Conn.Close, hc]
  · simp [Conn.Status]

/-- C7 witness: the amended statement fired on concrete sessions: Close of a
disconnected session errors, Close of the connected demo session flips the
flag, the closed session's refresh reports NotConnectedError, and the loop
fatals on it. -/
theorem C7_close_witness :
    Conn.Close {demoConn with connected := false} .netFail =
      ({demoConn with connected := false}, some .notConnected) ∧
    Conn.Close demoConn (.status 200) =
      ({demoConn with connected := false}, none) ∧
    (Conn.Status {demoConn with connected := false} (.ok emptyEnc)
      (.ok emptyMod) (.ok emptyStatus)).2 = some .notConnected ∧
    pollLoopAux [some SnapErr.notConnected] =
      .fatalProcessExit .notConnected ∧
    PollEnd.fatalProcessExit SnapErr.notConnected ≠ .ctxCanceled :=
  ⟨(C7_close {demoConn with connected := false} .netFail (.ok emptyEnc)
      (.ok emptyMod) (.ok emptyStatus) [] .notConnected).1 rfl,
    (C7_close demoConn .netFail (.ok emptyEnc) (.ok emptyMod)
      (.ok emptyStatus) [] .notConnected).2.1 rfl,
    (C7_close demoConn .netFail (.ok emptyEnc) (.ok emptyMod)
      (.ok emptyStatus) [] .notConnected).2.2.1,
    (C7_close demoConn .netFail (.ok emptyEnc) (.ok emptyMod)
      (.ok emptyStatus) [] .notConnected).2.2.2.1,
    (C7_close demoConn .netFail (.ok emptyEnc) (.ok emptyMod)
      (.ok emptyStatus) [] .notConnected).2.2.2.2⟩

/-- The steady-state polling loop fatals at the first failed refresh after
any run of successful ones. -/
theorem pollLoopAux_first_error :
    ∀ (pre : List (Option SnapErr)), (∀ x ∈ pre, x = none) →
    ∀ (e : SnapErr) (post : List (Option SnapErr)),
      pollLoopAux (pre ++ some e :: post) = .fatalProcessExit e
  | [], _, _, _ => rfl
  | none :: rest, h, e, post =>
    pollLoopAux_first_error rest
      (fun x hx => h x (List.mem_cons_of_mem _ hx)) e post
  | some _ :: rest, h, e, post =>
    absurd (h _ (List.mem_cons_self _ _)) (by simp)

/-- C8: after the first refresh result (a success) has been delivered to the
connect caller, the first failure among the subsequent refreshes makes the
background poller terminate the whole process — it never logs the error and
retains the last-known-good snapshot. -/
theorem C8_poll_failure_fatal (pre post : List (Option SnapErr)) (e : SnapErr)
    (hpre : ∀ x ∈ pre, x = none) :
    pollStatusModel none none (pre ++ some e :: post) =
      (none, .fatalProcessExit e) := by
  have hfe := pollLoopAux_first_error pre hpre e post
  simp [pollStatusModel, hfe]

/-- C8 witness: one successful steady-state refresh followed by a network
failure kills the process. -/
theorem C8_poll_failure_fatal_witness :
    (∀ x ∈ [(none : Option SnapErr)], x = none) ∧
      pollStatusModel none none [none, some .netError] =
        (none, .fatalProcessExit .netError) :=
  ⟨by decide, C8_poll_failure_fatal [none] [] .netError (by decide)⟩

/-- C9 counterexample: the background poller writes the module-listing
snapshot while no lock is held, so the claim that every snapshot mutation of
every operation happens under the session lock fails on pollStatus. -/
theorem C9_lock_discipline_counterexample :
    writesLocked (pollStatusTrace true) = false ∧
      pollStatusTrace true ∈ packageTraces ∧
      unlockedWrites (pollStatusTrace true) 0 = [.modListS] :=
  ⟨by decide, by decide, by decide⟩

/-- C9 (amended): in every operation of the package, every snapshot write
performed while no lock is held targets the module-listing snapshot — the
background poller's initial modListing call is the only unlocked snapshot
write; all tool, enclosure and module-info snapshot writes happen under the
session lock. -/
theorem C9_lock_discipline (t : List LockEv) (ht : t ∈ packageTraces) :
    (∀ f ∈ unlockedWrites t 0, f = SnapField.modListS) ∧
      unlockedWrites (pollStatusTrace true) 0 = [SnapField.modListS] ∧
      writesLocked (statusTrace true) = true ∧
      writesLocked (statusTrace false) = true ∧
      writesLocked moveToTrace = true ∧
      writesLocked (stepTrace true) = true ∧
      writesLocked (stepTrace false) = true := by
  refine ⟨?_, by decide, by decide, by decide, by decide, by decide,
    by decide⟩
  fin_cases ht <;> decide

/-- C9 witness: the amended statement applied to the poller's own trace. -/
theorem C9_lock_discipline_witness :
    pollStatusTrace true ∈ packageTraces ∧
      ((∀ f ∈ unlockedWrites (pollStatusTrace true) 0,
        f = SnapField.modListS) ∧
      unlockedWrites (pollStatusTrace true) 0 = [SnapField.modListS] ∧
      writesLocked (statusTrace true) = true ∧
      writesLocked (statusTrace false) = true ∧
      writesLocked moveToTrace = true ∧
      writesLocked (stepTrace true) = true ∧
      writesLocked (stepTrace false) = true) :=
  ⟨by decide, C9_lock_discipline (pollStatusTrace true) (by decide)⟩

/-- C10: a MoveTo whose G-code command succeeds sets the cached position to
exactly the requested coordinates and changes nothing else in the session;
a MoveTo whose G-code command fails returns that error and leaves the whole
session (cached position included) unchanged. -/
theorem C10_moveTo_frame (fuel : Nat) (hf : 0 < fuel) (c : Conn)
    (hc : c.connected = true) (hm : c.moving = false) (ctx : Bool)
    (x y z : Rat) :
    (MoveTo fuel c ctx none x y z =
      some (none, {c with toolState :=
        {c.toolState with X := x, Y := y, Z := z}})) ∧
    (∀ e, MoveTo fuel c ctx (some e) x y z = some (some e, c)) := by
  obtain ⟨n, rfl⟩ : ∃ n, fuel = n + 1 := ⟨fuel - 1, by omega⟩
  obtain ⟨u, tk, co, mv, ro, ht, he, ml, es, ms, ts⟩ := c
  simp only at hc hm
  subst hc
  subst hm
  have hw : waitToMove (n + 1) ⟨u, tk, true, false, ro, ht, he, ml, es, ms, ts⟩
      ctx = some (none, ⟨u, tk, true, true, ro, ht, he, ml, es, ms, ts⟩) := by
    simp [waitToMove, acquireTry]
  constructor
  · simp [MoveTo, hw, stopMoving]
  · intro e
    simp [MoveTo, hw, stopMoving]

/-- C10 witness: the frame statement fired on the demo session at the target
(1, 2, 3). -/
theorem C10_moveTo_frame_witness :
    (0 : Nat) < 1 ∧ demoConn.connected = true ∧ demoConn.moving = false ∧
      MoveTo 1 demoConn true none 1 2 3 =
        some (none, {demoConn with toolState :=
          {demoConn.toolState with X := 1, Y := 2, Z := 3}}) ∧
      (∀ e, MoveTo 1 demoConn true (some e) 1 2 3 = some (some e, demoConn)) :=
  ⟨by decide, rfl, rfl,
    (C10_moveTo_frame 1 (by decide) demoConn rfl rfl true 1 2 3).1,
    (C10_moveTo_frame 1 (by decide) demoConn rfl rfl true 1 2 3).2⟩

end Snappy
